import Mathlib

set_option maxHeartbeats 1000000
set_option maxRecDepth 10000

/-!
# Verification of the Relay-it screenshot-analysis service

Shallow embedding of the repository's three Python source files
(`src/index.py`, `src/api/index.py`, `src/prompts.py`) and proofs about
the behaviour of the `analyze`, `regenerate` and `summarize` operations.

The external Gemini model call is injected as an oracle value (either a
returned text or a raised exception), and the API-key configuration is a
Boolean parameter, matching the spec's view of the model as an opaque
capability.  Python's `json` module is modelled by an executable JSON
parser and serializer over a `Json` value type; texts are modelled by
Lean `String`s and byte buffers by `List Nat`.
-/

/-! ## Character-level helpers (models of Python `str` operations) -/

/-- JSON insignificant whitespace, as accepted by Python's `json.loads`. -/
def jsonWs (c : Char) : Bool := c = ' ' || c = '\t' || c = '\n' || c = '\r'

/-- Drop leading JSON whitespace. -/
def skipWs (l : List Char) : List Char := l.dropWhile jsonWs

/-- The whitespace set stripped by Python's `str.strip()`. -/
def pyWs (c : Char) : Bool :=
  c = ' ' || c = '\t' || c = '\n' || c = '\r' || c = '\x0b' || c = '\x0c'

/-- Model of Python `str.strip()` on the character list. -/
def pyStripL (l : List Char) : List Char :=
  ((l.dropWhile pyWs).reverse.dropWhile pyWs).reverse

/-- Model of Python `str.strip()`. -/
def pyStrip (s : String) : String := ⟨pyStripL s.data⟩

/-- Model of Python `str.split(sep)` for a one-character separator:
splits on every occurrence, keeping empty pieces. -/
def splitOnCharL (sep : Char) : List Char → List (List Char)
  | [] => [[]]
  | c :: t =>
    let r := splitOnCharL sep t
    if c = sep then [] :: r
    else
      match r with
      | [] => [[c]]
      | h :: t2 => (c :: h) :: t2

/-- Model of Python `sep.join(pieces)` for a one-character separator. -/
def joinWithCharL (sep : Char) : List (List Char) → List Char
  | [] => []
  | [h] => h
  | h :: t2 => h ++ sep :: joinWithCharL sep t2

/-! ## The JSON value type (model of Python objects produced by `json.loads`)

Numbers are kept as their source lexeme (the scanned characters); no claim
performs arithmetic on JSON numbers, and this keeps serialization exact.
Objects are association lists in insertion order, matching Python `dict`
iteration order. -/

mutual
inductive Json : Type where
  | null : Json
  | bool (b : Bool) : Json
  | num (lexeme : String) : Json
  | str (s : String) : Json
  | arr (elems : JArr) : Json
  | obj (fields : JObj) : Json

inductive JArr : Type where
  | nil : JArr
  | cons (hd : Json) (tl : JArr) : JArr

inductive JObj : Type where
  | nil : JObj
  | cons (key : String) (val : Json) (tl : JObj) : JObj
end

/-- Build a `JArr` from a Lean list. -/
def jArrOf : List Json → JArr
  | [] => .nil
  | j :: t => .cons j (jArrOf t)

/-- Build a `JObj` from a Lean association list. -/
def jObjOf : List (String × Json) → JObj
  | [] => .nil
  | (k, v) :: t => .cons k v (jObjOf t)

/-- First binding of a key (models Python `d[k]` / `k in d` on request
bodies; the claims only involve bodies without duplicate keys). -/
def JObj.find : JObj → String → Option Json
  | .nil, _ => none
  | .cons k v t, key => if k = key then some v else t.find key

/-- Models Python `d.get(k, default)`. -/
def JObj.findD (o : JObj) (key : String) (dflt : Json) : Json :=
  (o.find key).getD dflt

/-- Is the object empty (Python truthiness of a dict)? -/
def JObj.isNil : JObj → Bool
  | .nil => true
  | .cons _ _ _ => false

/-! ## JSON scanner helpers -/

/-- Characters that may occur in a JSON number lexeme. -/
def numChar (c : Char) : Bool :=
  c.isDigit || c = '-' || c = '+' || c = '.' || c = 'e' || c = 'E'

/-- Unescape one character following a backslash in a JSON string
(`\u` escapes are not modelled; no claim exercises them). -/
def unesc (c : Char) : Option Char :=
  if c = '"' then some '"'
  else if c = '\\' then some '\\'
  else if c = '/' then some '/'
  else if c = 'n' then some '\n'
  else if c = 't' then some '\t'
  else if c = 'r' then some '\r'
  else if c = 'b' then some '\x08'
  else if c = 'f' then some '\x0c'
  else none

/-- Scan the body of a JSON string after the opening quote; returns the
decoded characters and the input after the closing quote. -/
def parseStrBody : List Char → Option (List Char × List Char)
  | [] => none
  | c :: rest =>
    if c = '"' then some ([], rest)
    else if c = '\\' then
      match rest with
      | [] => none
      | e :: rest2 =>
        match unesc e with
        | some u => (parseStrBody rest2).map (fun p => (u :: p.1, p.2))
        | none => none
    else (parseStrBody rest).map (fun p => (c :: p.1, p.2))

/-! ## The JSON parser (model of Python `json.loads`), fuel-indexed -/

mutual
/-- Parse one JSON value from the front of the input. -/
def parseVal : Nat → List Char → Option (Json × List Char)
  | 0, _ => none
  | f + 1, l =>
    match skipWs l with
    | [] => none
    | c :: r =>
      if c = '\x7b' then
        match skipWs r with
        | '\x7d' :: r2 => some (.obj .nil, r2)
        | _ =>
          match parseFields1 f r with
          | some (o, r2) => some (.obj o, r2)
          | none => none
      else if c = '[' then
        match skipWs r with
        | ']' :: r2 => some (.arr .nil, r2)
        | _ =>
          match parseElems1 f r with
          | some (a, r2) => some (.arr a, r2)
          | none => none
      else if c = '"' then
        match parseStrBody r with
        | some (s, r2) => some (.str ⟨s⟩, r2)
        | none => none
      else if c = 't' then
        if r.take 3 = ['r', 'u', 'e'] then some (.bool true, r.drop 3) else none
      else if c = 'f' then
        if r.take 4 = ['a', 'l', 's', 'e'] then some (.bool false, r.drop 4) else none
      else if c = 'n' then
        if r.take 3 = ['u', 'l', 'l'] then some (.null, r.drop 3) else none
      else if c.isDigit || c = '-' then
        some (.num ⟨(c :: r).takeWhile numChar⟩, (c :: r).dropWhile numChar)
      else none

/-- Parse a non-empty comma-separated element list and the closing `]`. -/
def parseElems1 : Nat → List Char → Option (JArr × List Char)
  | 0, _ => none
  | f + 1, l =>
    match parseVal f l with
    | none => none
    | some (j, r) =>
      match skipWs r with
      | ']' :: r2 => some (.cons j .nil, r2)
      | ',' :: r2 =>
        match parseElems1 f r2 with
        | some (t, r3) => some (.cons j t, r3)
        | none => none
      | _ => none

/-- Parse a non-empty comma-separated member list and the closing brace. -/
def parseFields1 : Nat → List Char → Option (JObj × List Char)
  | 0, _ => none
  | f + 1, l =>
    match skipWs l with
    | '"' :: r =>
      match parseStrBody r with
      | some (k, r1) =>
        match skipWs r1 with
        | ':' :: r2 =>
          match parseVal f r2 with
          | some (v, r3) =>
            match skipWs r3 with
            | '\x7d' :: r4 => some (.cons ⟨k⟩ v .nil, r4)
            | ',' :: r4 =>
              match parseFields1 f r4 with
              | some (t, r5) => some (.cons ⟨k⟩ v t, r5)
              | none => none
            | _ => none
          | none => none
        | _ => none
      | none => none
    | _ => none
end

/-- Model of Python `json.loads`: parse one value, then require only
whitespace to remain. -/
def jsonLoads (s : String) : Option Json :=
  match parseVal (s.data.length + 1) s.data with
  | some (j, rest) => if (skipWs rest).isEmpty then some j else none
  | none => none

/-! ## The JSON serializer (model of Python `json.dumps` with its default
separators `", "` and `": "`) -/

/-- Escape one character of a JSON string. -/
def escChar (c : Char) : List Char :=
  if c = '"' then ['\\', '"']
  else if c = '\\' then ['\\', '\\']
  else if c = '\n' then ['\\', 'n']
  else if c = '\t' then ['\\', 't']
  else if c = '\r' then ['\\', 'r']
  else [c]

/-- Escape a whole string body. -/
def escList : List Char → List Char
  | [] => []
  | c :: t => escChar c ++ escList t

mutual
/-- Serialize a JSON value (characters of `json.dumps`). -/
def serJ : Json → List Char
  | .null => "null".data
  | .bool true => "true".data
  | .bool false => "false".data
  | .num s => s.data
  | .str s => '"' :: (escList s.data ++ ['"'])
  | .arr a => '[' :: (serArr a ++ [']'])
  | .obj o => '\x7b' :: (serObj o ++ ['\x7d'])

/-- Serialize array elements, separated by `", "`. -/
def serArr : JArr → List Char
  | .nil => []
  | .cons j .nil => serJ j
  | .cons j (.cons j2 t) => serJ j ++ ',' :: ' ' :: serArr (.cons j2 t)

/-- Serialize object members, `"key": value` separated by `", "`. -/
def serObj : JObj → List Char
  | .nil => []
  | .cons k v .nil => '"' :: (escList k.data ++ '"' :: ':' :: ' ' :: serJ v)
  | .cons k v (.cons k2 v2 t) =>
    ('"' :: (escList k.data ++ '"' :: ':' :: ' ' :: serJ v)) ++
      ',' :: ' ' :: serObj (.cons k2 v2 t)
end

/-- Model of Python `json.dumps` (default separators). -/
def jsonDumps (j : Json) : String := ⟨serJ j⟩

/-! ## Well-formedness of parser output

The only invariant the parser guarantees beyond the type is that number
lexemes are non-empty, start with a digit or `-`, and consist of number
characters; the round-trip theorem needs it. -/

/-- A valid scanned number lexeme. -/
def wfLex : List Char → Bool
  | [] => false
  | c :: t => (c.isDigit || c = '-') && (c :: t).all numChar

mutual
def wfJ : Json → Bool
  | .num s => wfLex s.data
  | .arr a => wfA a
  | .obj o => wfO o
  | _ => true

def wfA : JArr → Bool
  | .nil => true
  | .cons j t => wfJ j && wfA t

def wfO : JObj → Bool
  | .nil => true
  | .cons _ v t => wfJ v && wfO t
end

/-! ## Fuel requirements of the parser on serialized input -/

mutual
def nfJ : Json → Nat
  | .arr a => nfA a + 1
  | .obj o => nfO o + 1
  | _ => 1

def nfA : JArr → Nat
  | .nil => 0
  | .cons j t => nfJ j + nfA t + 1

def nfO : JObj → Nat
  | .nil => 0
  | .cons _ v t => nfJ v + nfO t + 1
end

/-- May the serialized form of a value be followed by this tail without
changing how the value is scanned?  (Empty, or a separator character.) -/
def sepOk : List Char → Bool
  | [] => true
  | c :: _ => c = ',' || c = ']' || c = '\x7d'

/-! ## Small list lemmas -/

theorem all_takeWhile (p : Char → Bool) : ∀ l : List Char, (l.takeWhile p).all p = true := by
  intro l
  induction l with
  | nil => rfl
  | cons c t ih =>
    by_cases h : p c
    · simp [List.takeWhile_cons, h, ih]
    · simp [List.takeWhile_cons, h]

theorem takeWhile_append_all (p : Char → Bool) :
    ∀ (l1 l2 : List Char), l1.all p = true →
      (∀ c, l2.head? = some c → p c = false) →
      (l1 ++ l2).takeWhile p = l1 ∧ (l1 ++ l2).dropWhile p = l2 := by
  intro l1 l2 h1 h2
  induction l1 with
  | nil =>
    simp only [List.nil_append]
    cases l2 with
    | nil => simp
    | cons c t =>
      have := h2 c rfl
      simp [List.takeWhile_cons, List.dropWhile_cons, this]
  | cons c t ih =>
    simp only [List.all_cons, Bool.and_eq_true] at h1
    have := ih h1.2
    simp [List.takeWhile_cons, List.dropWhile_cons, h1.1, this.1, this.2]

theorem numStart_facts (c : Char) (h : (c.isDigit || (c = '-')) = true) :
    jsonWs c = false ∧ c ≠ '\x7b' ∧ c ≠ '[' ∧ c ≠ '"' ∧ c ≠ 't' ∧ c ≠ 'f' ∧ c ≠ 'n' := by
  have hne : ∀ d : Char, (d.isDigit || (d = '-')) = false → c ≠ d := by
    intro d hd heq
    rw [heq] at h
    rw [h] at hd
    exact absurd hd (by simp)
  refine ⟨?_, hne _ (by decide), hne _ (by decide), hne _ (by decide),
    hne _ (by decide), hne _ (by decide), hne _ (by decide)⟩
  have h1 := hne ' ' (by decide)
  have h2 := hne '\t' (by decide)
  have h3 := hne '\n' (by decide)
  have h4 := hne '\r' (by decide)
  simp [jsonWs, h1, h2, h3, h4]

theorem numChar_not_sep (c : Char) (h : (c = ',' || c = ']' || c = '\x7d') = true) :
    numChar c = false := by
  rcases Bool.or_eq_true_iff.mp h with h' | h'
  · rcases Bool.or_eq_true_iff.mp h' with h'' | h''
    · rw [of_decide_eq_true h'']; decide
    · rw [of_decide_eq_true h'']; decide
  · rw [of_decide_eq_true h']; decide

theorem skipWs_cons_ws (l : List Char) : skipWs (' ' :: l) = skipWs l := by
  simp [skipWs, List.dropWhile_cons, jsonWs]

theorem parseVal_ws (f : Nat) (l : List Char) : parseVal f (' ' :: l) = parseVal f l := by
  cases f with
  | zero => rfl
  | succ f' =>
    rw [parseVal, parseVal, skipWs_cons_ws]

theorem parseElems1_ws (f : Nat) (l : List Char) :
    parseElems1 f (' ' :: l) = parseElems1 f l := by
  cases f with
  | zero => rfl
  | succ f' =>
    rw [parseElems1, parseElems1, parseVal_ws]

theorem parseFields1_ws (f : Nat) (l : List Char) :
    parseFields1 f (' ' :: l) = parseFields1 f l := by
  cases f with
  | zero => rfl
  | succ f' =>
    rw [parseFields1, parseFields1, skipWs_cons_ws]

theorem rtStr : ∀ (l : List Char) (rest : List Char),
    parseStrBody (escList l ++ '"' :: rest) = some (l, rest) := by
  intro l
  induction l with
  | nil =>
    intro rest
    show parseStrBody ('"' :: rest) = _
    rw [parseStrBody.eq_def]
    simp
  | cons c t ih =>
    intro rest
    rw [show escList (c :: t) = escChar c ++ escList t from rfl, List.append_assoc]
    by_cases h1 : c = '"'
    · subst h1
      rw [show escChar '"' = ['\\', '"'] from rfl]
      rw [List.cons_append, List.cons_append, List.nil_append]
      rw [parseStrBody.eq_def]
      simp only [reduceIte, if_neg (show ¬('\\' = '"') from by decide)]
      rw [show unesc '"' = some '"' from rfl]
      rw [ih rest]
      rfl
    · by_cases h2 : c = '\\'
      · subst h2
        rw [show escChar '\\' = ['\\', '\\'] from rfl]
        rw [List.cons_append, List.cons_append, List.nil_append]
        rw [parseStrBody.eq_def]
        simp only [reduceIte, if_neg (show ¬('\\' = '"') from by decide)]
        rw [show unesc '\\' = some '\\' from rfl]
        rw [ih rest]
        rfl
      · by_cases h3 : c = '\n'
        · subst h3
          rw [show escChar '\n' = ['\\', 'n'] from rfl]
          rw [List.cons_append, List.cons_append, List.nil_append]
          rw [parseStrBody.eq_def]
          simp only [reduceIte, if_neg (show ¬('\\' = '"') from by decide)]
          rw [show unesc 'n' = some '\n' from rfl]
          rw [ih rest]
          rfl
        · by_cases h4 : c = '\t'
          · subst h4
            rw [show escChar '\t' = ['\\', 't'] from rfl]
            rw [List.cons_append, List.cons_append, List.nil_append]
            rw [parseStrBody.eq_def]
            simp only [reduceIte, if_neg (show ¬('\\' = '"') from by decide)]
            rw [show unesc 't' = some '\t' from rfl]
            rw [ih rest]
            rfl
          · by_cases h5 : c = '\r'
            · subst h5
              rw [show escChar '\r' = ['\\', 'r'] from rfl]
              rw [List.cons_append, List.cons_append, List.nil_append]
              rw [parseStrBody.eq_def]
              simp only [reduceIte, if_neg (show ¬('\\' = '"') from by decide)]
              rw [show unesc 'r' = some '\r' from rfl]
              rw [ih rest]
              rfl
            · rw [show escChar c = [c] from by simp [escChar, h1, h2, h3, h4, h5]]
              rw [List.cons_append, List.nil_append]
              rw [parseStrBody.eq_def]
              simp only [if_neg h1, if_neg h2]
              rw [ih rest]
              rfl

theorem numChar_of_start (c : Char) (h : (c.isDigit || (c = '-')) = true) :
    numChar c = true := by
  rcases Bool.or_eq_true_iff.mp h with h' | h'
  · simp [numChar, h']
  · rw [of_decide_eq_true h']; decide

theorem wfLex_takeWhile (c : Char) (r : List Char) (h : (c.isDigit || (c = '-')) = true) :
    wfLex ((c :: r).takeWhile numChar) = true := by
  have hc := numChar_of_start c h
  rw [List.takeWhile_cons, if_pos hc]
  show (_ && _) = true
  rw [h]
  simp only [Bool.true_and, List.all_cons, hc, Bool.true_and]
  exact all_takeWhile numChar r

theorem parse_wf : ∀ f : Nat,
    (∀ l j r, parseVal f l = some (j, r) → wfJ j = true) ∧
    (∀ l a r, parseElems1 f l = some (a, r) → wfA a = true) ∧
    (∀ l o r, parseFields1 f l = some (o, r) → wfO o = true) := by
  intro f
  induction f with
  | zero =>
    refine ⟨?_, ?_, ?_⟩ <;> intro l x r h
    · simp [parseVal] at h
    · simp [parseElems1] at h
    · simp [parseFields1] at h
  | succ f ih =>
    obtain ⟨ihv, ihe, ihf⟩ := ih
    refine ⟨?_, ?_, ?_⟩
    · intro l j r h
      rw [parseVal] at h
      split at h
      · simp at h
      · rename_i c cs hsk
        by_cases h1 : c = '\x7b'
        · rw [if_pos h1] at h
          split at h
          · injection h with h'
            injection h' with h2 h3
            subst h2
            rfl
          · split at h
            · rename_i o r2 heq
              injection h with h'
              injection h' with h2 h3
              subst h2
              exact ihf _ _ _ heq
            · simp at h
        · rw [if_neg h1] at h
          by_cases h2 : c = '['
          · rw [if_pos h2] at h
            split at h
            · injection h with h'
              injection h' with ha hb
              subst ha
              rfl
            · split at h
              · rename_i a r2 heq
                injection h with h'
                injection h' with ha hb
                subst ha
                exact ihe _ _ _ heq
              · simp at h
          · rw [if_neg h2] at h
            by_cases h3 : c = '"'
            · rw [if_pos h3] at h
              split at h
              · rename_i s r2 heq
                injection h with h'
                injection h' with ha hb
                subst ha
                rfl
              · simp at h
            · rw [if_neg h3] at h
              by_cases h4 : c = 't'
              · rw [if_pos h4] at h
                split at h
                · injection h with h'
                  injection h' with ha hb
                  subst ha
                  rfl
                · simp at h
              · rw [if_neg h4] at h
                by_cases h5 : c = 'f'
                · rw [if_pos h5] at h
                  split at h
                  · injection h with h'
                    injection h' with ha hb
                    subst ha
                    rfl
                  · simp at h
                · rw [if_neg h5] at h
                  by_cases h6 : c = 'n'
                  · rw [if_pos h6] at h
                    split at h
                    · injection h with h'
                      injection h' with ha hb
                      subst ha
                      rfl
                    · simp at h
                  · rw [if_neg h6] at h
                    by_cases h7 : (c.isDigit || (c = '-')) = true
                    · rw [if_pos h7] at h
                      injection h with h'
                      injection h' with ha hb
                      subst ha
                      show wfLex (String.data ⟨_⟩) = true
                      exact wfLex_takeWhile c cs h7
                    · rw [if_neg h7] at h
                      simp at h
    · intro l a r h
      rw [parseElems1] at h
      split at h
      · simp at h
      · rename_i j r1 heq
        split at h
        · injection h with h'
          injection h' with ha hb
          subst ha
          show (_ && _) = true
          rw [ihv _ _ _ heq]
          rfl
        · split at h
          · rename_i t r3 heq2
            injection h with h'
            injection h' with ha hb
            subst ha
            show (_ && _) = true
            rw [ihv _ _ _ heq, ihe _ _ _ heq2]
            rfl
          · simp at h
        · simp at h
    · intro l o r h
      rw [parseFields1] at h
      split at h
      · rename_i k r0
        split at h
        · rename_i kk r1 heq0
          split at h
          · rename_i r2
            split at h
            · rename_i v r3 heqv
              split at h
              · injection h with h'
                injection h' with ha hb
                subst ha
                show (_ && _) = true
                rw [ihv _ _ _ heqv]
                rfl
              · split at h
                · rename_i t r5 heqt
                  injection h with h'
                  injection h' with ha hb
                  subst ha
                  show (_ && _) = true
                  rw [ihv _ _ _ heqv, ihf _ _ _ heqt]
                  rfl
                · simp at h
              · simp at h
            · simp at h
          · simp at h
        · simp at h
      · simp at h

theorem ne_of_numStart (c : Char) (h : (c.isDigit || (c = '-')) = true)
    (d : Char) (hd : (d.isDigit || (d = '-')) = false) : c ≠ d := by
  intro heq
  rw [heq] at h
  rw [h] at hd
  exact absurd hd (by simp)

theorem pyWs_false_of_numStart (c : Char) (h : (c.isDigit || (c = '-')) = true) :
    pyWs c = false := by
  simp [pyWs, ne_of_numStart c h ' ' (by decide), ne_of_numStart c h '\t' (by decide),
    ne_of_numStart c h '\n' (by decide), ne_of_numStart c h '\r' (by decide),
    ne_of_numStart c h '\x0b' (by decide), ne_of_numStart c h '\x0c' (by decide)]

theorem pyWs_false_of_numChar (c : Char) (h : numChar c = true) : pyWs c = false := by
  have hne : ∀ d : Char, numChar d = false → c ≠ d := by
    intro d hd heq
    rw [heq] at h
    rw [h] at hd
    exact absurd hd (by simp)
  simp [pyWs, hne ' ' (by decide), hne '\t' (by decide), hne '\n' (by decide),
    hne '\r' (by decide), hne '\x0b' (by decide), hne '\x0c' (by decide)]

theorem skipWs_cons_of_neg (c : Char) (l : List Char) (h : jsonWs c = false) :
    skipWs (c :: l) = c :: l := by
  simp [skipWs, List.dropWhile_cons, h]

/-- The first character of a serialized well-formed value: never whitespace,
never a closing bracket, brace or backtick. -/
theorem serJ_head (j : Json) (hw : wfJ j = true) :
    ∃ c cs, serJ j = c :: cs ∧ jsonWs c = false ∧ pyWs c = false ∧
      c ≠ ']' ∧ c ≠ '\x7d' ∧ c ≠ '`' := by
  cases j with
  | null => exact ⟨'n', _, rfl, by decide, by decide, by decide, by decide, by decide⟩
  | bool b =>
    cases b with
    | true => exact ⟨'t', _, rfl, by decide, by decide, by decide, by decide, by decide⟩
    | false => exact ⟨'f', _, rfl, by decide, by decide, by decide, by decide, by decide⟩
  | num s =>
    rw [show wfJ (.num s) = wfLex s.data from rfl] at hw
    cases hd : s.data with
    | nil => rw [hd] at hw; exact absurd hw (by simp [wfLex])
    | cons c cs =>
      rw [hd] at hw
      have hstart : (c.isDigit || (c = '-')) = true := by
        have := hw
        simp only [wfLex, Bool.and_eq_true] at this
        exact this.1
      refine ⟨c, cs, by rw [show serJ (.num s) = s.data from rfl, hd], ?_,
        pyWs_false_of_numStart c hstart,
        ne_of_numStart c hstart ']' (by decide),
        ne_of_numStart c hstart '\x7d' (by decide),
        ne_of_numStart c hstart '`' (by decide)⟩
      simp [jsonWs, ne_of_numStart c hstart ' ' (by decide),
        ne_of_numStart c hstart '\t' (by decide),
        ne_of_numStart c hstart '\n' (by decide),
        ne_of_numStart c hstart '\r' (by decide)]
  | str s => exact ⟨'"', _, rfl, by decide, by decide, by decide, by decide, by decide⟩
  | arr a => exact ⟨'[', _, rfl, by decide, by decide, by decide, by decide, by decide⟩
  | obj o => exact ⟨'\x7b', _, rfl, by decide, by decide, by decide, by decide, by decide⟩

theorem mkData_eq (s : String) : (⟨s.data⟩ : String) = s := by
  cases s
  rfl

theorem serArr_head (hd : Json) (tl : JArr) (hwhd : wfJ hd = true) :
    ∃ c cs, serArr (.cons hd tl) = c :: cs ∧ jsonWs c = false ∧ c ≠ ']' := by
  obtain ⟨c, cs, hser, hws, _, hne, _, _⟩ := serJ_head hd hwhd
  cases tl with
  | nil =>
    exact ⟨c, cs, by rw [show serArr (.cons hd .nil) = serJ hd from rfl, hser], hws, hne⟩
  | cons hd2 tl2 =>
    refine ⟨c, cs ++ ',' :: ' ' :: serArr (.cons hd2 tl2), ?_, hws, hne⟩
    rw [show serArr (.cons hd (.cons hd2 tl2)) =
      serJ hd ++ ',' :: ' ' :: serArr (.cons hd2 tl2) from rfl, hser]
    rfl

theorem serObj_head (k : String) (v : Json) (tl : JObj) :
    ∃ cs, serObj (.cons k v tl) = '"' :: cs := by
  cases tl with
  | nil => exact ⟨_, rfl⟩
  | cons k2 v2 tl2 => exact ⟨_, rfl⟩

mutual
/-- Parsing inverts serialization for one value, given enough fuel and a
separator-headed (or empty) remainder. -/
theorem rtVal : ∀ (j : Json), wfJ j = true → ∀ (f : Nat) (rest : List Char),
    nfJ j ≤ f → sepOk rest = true → parseVal f (serJ j ++ rest) = some (j, rest)
  | j, hw, 0, rest, hf, hs => by cases j <;> simp [nfJ] at hf
  | .null, hw, f' + 1, rest, hf, hs => rfl
  | .bool true, hw, f' + 1, rest, hf, hs => rfl
  | .bool false, hw, f' + 1, rest, hf, hs => rfl
  | .num s, hw, f' + 1, rest, hf, hs => by
    rw [show wfJ (.num s) = wfLex s.data from rfl] at hw
    cases hd : s.data with
    | nil => rw [hd] at hw; exact absurd hw (by simp [wfLex])
    | cons c cs =>
      rw [hd] at hw
      simp only [wfLex, Bool.and_eq_true] at hw
      obtain ⟨hstart, hall⟩ := hw
      have hrest : ∀ ch, rest.head? = some ch → numChar ch = false := by
        intro ch hch
        cases rest with
        | nil => simp at hch
        | cons c0 t0 =>
          injection hch with hch
          subst hch
          exact numChar_not_sep c0 hs
      have htd := takeWhile_append_all numChar (c :: cs) rest hall hrest
      rw [show serJ (.num s) = s.data from rfl, hd]
      rw [parseVal]
      rw [List.cons_append]
      rw [skipWs_cons_of_neg _ _ (by
        simp [jsonWs, ne_of_numStart c hstart ' ' (by decide),
          ne_of_numStart c hstart '\t' (by decide),
          ne_of_numStart c hstart '\n' (by decide),
          ne_of_numStart c hstart '\r' (by decide)])]
      simp only [if_neg (ne_of_numStart c hstart '\x7b' (by decide)),
        if_neg (ne_of_numStart c hstart '[' (by decide)),
        if_neg (ne_of_numStart c hstart '"' (by decide)),
        if_neg (ne_of_numStart c hstart 't' (by decide)),
        if_neg (ne_of_numStart c hstart 'f' (by decide)),
        if_neg (ne_of_numStart c hstart 'n' (by decide)),
        if_pos hstart]
      rw [show (c :: (cs ++ rest)) = (c :: cs) ++ rest from rfl]
      rw [htd.1, htd.2, ← hd, mkData_eq]
  | .str s, hw, f' + 1, rest, hf, hs => by
    rw [show serJ (.str s) = '"' :: (escList s.data ++ ['"']) from rfl]
    rw [parseVal]
    rw [List.cons_append]
    rw [skipWs_cons_of_neg _ _ (by decide)]
    simp only [if_neg (show ¬(('"' : Char) = '\x7b') from by decide),
      if_neg (show ¬(('"' : Char) = '[') from by decide),
      if_pos (show ('"' : Char) = '"' from rfl)]
    rw [List.append_assoc, List.singleton_append]
    rw [rtStr s.data rest]
    rw [if_pos trivial]
  | .arr .nil, hw, f' + 1, rest, hf, hs => rfl
  | .arr (.cons hd tl), hw, f' + 1, rest, hf, hs => by
    have hwa : wfA (.cons hd tl) = true := hw
    have hwhd : wfJ hd = true := by
      have h' := hwa
      rw [wfA, Bool.and_eq_true] at h'
      exact h'.1
    rw [show serJ (.arr (.cons hd tl)) = '[' :: (serArr (.cons hd tl) ++ [']']) from rfl]
    rw [parseVal]
    rw [List.cons_append]
    rw [skipWs_cons_of_neg _ _ (by decide)]
    simp only [if_neg (show ¬(('[' : Char) = '\x7b') from by decide),
      if_pos (show ('[' : Char) = '[' from rfl)]
    rw [if_pos trivial]
    rw [List.append_assoc, List.singleton_append]
    have hfa : nfA (.cons hd tl) ≤ f' := by
      rw [show nfJ (.arr (.cons hd tl)) = nfA (.cons hd tl) + 1 from rfl] at hf
      omega
    have harr := rtArr hd tl hwa f' rest hfa
    obtain ⟨c0, cs0, hser, hws0, hne0⟩ := serArr_head hd tl hwhd
    split
    · rename_i r2 heq
      rw [hser, List.cons_append, skipWs_cons_of_neg _ _ hws0] at heq
      injection heq with h1 h2
      exact absurd h1 hne0
    · rw [harr]
  | .obj .nil, hw, f' + 1, rest, hf, hs => rfl
  | .obj (.cons k v tl), hw, f' + 1, rest, hf, hs => by
    have hwo : wfO (.cons k v tl) = true := hw
    rw [show serJ (.obj (.cons k v tl)) = '\x7b' :: (serObj (.cons k v tl) ++ ['\x7d'])
      from rfl]
    rw [parseVal]
    rw [List.cons_append]
    rw [skipWs_cons_of_neg _ _ (by decide)]
    simp only [if_pos (show ('\x7b' : Char) = '\x7b' from rfl)]
    rw [if_pos trivial]
    rw [List.append_assoc, List.singleton_append]
    have hfo : nfO (.cons k v tl) ≤ f' := by
      rw [show nfJ (.obj (.cons k v tl)) = nfO (.cons k v tl) + 1 from rfl] at hf
      omega
    have hobj := rtObj k v tl hwo f' rest hfo
    obtain ⟨cs0, hser⟩ := serObj_head k v tl
    split
    · rename_i r2 heq
      rw [hser, List.cons_append, skipWs_cons_of_neg _ _ (by decide)] at heq
      injection heq with h1 h2
      exact absurd h1 (by decide)
    · rw [hobj]
termination_by j _ _ _ _ _ => sizeOf j
decreasing_by all_goals (simp_wf; try omega)

/-- Parsing inverts serialization for a non-empty element list followed by
the closing bracket. -/
theorem rtArr : ∀ (hd : Json) (tl : JArr), wfA (.cons hd tl) = true →
    ∀ (f : Nat) (rest : List Char), nfA (.cons hd tl) ≤ f →
    parseElems1 f (serArr (.cons hd tl) ++ ']' :: rest) = some (.cons hd tl, rest)
  | hd, tl, hw, 0, rest, hf => by simp [nfA] at hf
  | hd, .nil, hw, f' + 1, rest, hf => by
    have hwhd : wfJ hd = true := by
      rw [wfA, Bool.and_eq_true] at hw
      exact hw.1
    rw [show serArr (.cons hd .nil) = serJ hd from rfl]
    rw [parseElems1]
    rw [rtVal hd hwhd f' (']' :: rest) (by rw [nfA] at hf; omega) rfl]
    rfl
  | hd, .cons hd2 tl2, hw, f' + 1, rest, hf => by
    rw [wfA, Bool.and_eq_true] at hw
    obtain ⟨hwhd, hwtl⟩ := hw
    rw [show serArr (.cons hd (.cons hd2 tl2)) =
      serJ hd ++ ',' :: ' ' :: serArr (.cons hd2 tl2) from rfl]
    rw [parseElems1]
    rw [List.append_assoc]
    rw [show (',' :: ' ' :: serArr (.cons hd2 tl2)) ++ ']' :: rest =
      ',' :: ' ' :: (serArr (.cons hd2 tl2) ++ ']' :: rest) from rfl]
    rw [rtVal hd hwhd f' (',' :: ' ' :: (serArr (.cons hd2 tl2) ++ ']' :: rest))
      (by rw [nfA] at hf; omega) rfl]
    show (match skipWs (',' :: ' ' :: (serArr (.cons hd2 tl2) ++ ']' :: rest)) with
      | ']' :: r2 => some (JArr.cons hd .nil, r2)
      | ',' :: r2 =>
        match parseElems1 f' r2 with
        | some (t, r3) => some (JArr.cons hd t, r3)
        | none => none
      | x => none) = some (JArr.cons hd (JArr.cons hd2 tl2), rest)
    rw [skipWs_cons_of_neg _ _ (by decide)]
    show (match parseElems1 f' (' ' :: (serArr (.cons hd2 tl2) ++ ']' :: rest)) with
      | some (t, r3) => some (JArr.cons hd t, r3)
      | none => none) = _
    rw [parseElems1_ws]
    rw [rtArr hd2 tl2 hwtl f' rest (by rw [nfA] at hf; omega)]
termination_by hd tl _ _ _ _ => 1 + sizeOf hd + sizeOf tl
decreasing_by all_goals (simp_wf; try omega)

/-- Parsing inverts serialization for a non-empty member list followed by
the closing brace. -/
theorem rtObj : ∀ (k : String) (v : Json) (tl : JObj), wfO (.cons k v tl) = true →
    ∀ (f : Nat) (rest : List Char), nfO (.cons k v tl) ≤ f →
    parseFields1 f (serObj (.cons k v tl) ++ '\x7d' :: rest) = some (.cons k v tl, rest)
  | k, v, tl, hw, 0, rest, hf => by simp [nfO] at hf
  | k, v, .nil, hw, f' + 1, rest, hf => by
    have hwv : wfJ v = true := by
      rw [wfO, Bool.and_eq_true] at hw
      exact hw.1
    rw [show serObj (.cons k v .nil) =
      '"' :: (escList k.data ++ '"' :: ':' :: ' ' :: serJ v) from rfl]
    rw [parseFields1]
    rw [List.cons_append]
    rw [skipWs_cons_of_neg _ _ (by decide)]
    rw [List.append_assoc]
    rw [show ('"' :: ':' :: ' ' :: serJ v) ++ '\x7d' :: rest =
      '"' :: (':' :: ' ' :: (serJ v ++ '\x7d' :: rest)) from by simp]
    show (match parseStrBody (escList k.data ++
        '"' :: ':' :: ' ' :: (serJ v ++ '\x7d' :: rest)) with
      | some (k', r1) =>
        match skipWs r1 with
        | ':' :: r2 =>
          match parseVal f' r2 with
          | some (v', r3) =>
            match skipWs r3 with
            | '\x7d' :: r4 => some (JObj.cons ⟨k'⟩ v' .nil, r4)
            | ',' :: r4 =>
              match parseFields1 f' r4 with
              | some (t, r5) => some (JObj.cons ⟨k'⟩ v' t, r5)
              | none => none
            | x => none
          | none => none
        | x => none
      | none => none) = some (JObj.cons k v .nil, rest)
    rw [rtStr k.data]
    show (match parseVal f' (' ' :: (serJ v ++ '\x7d' :: rest)) with
      | some (v', r3) =>
        match skipWs r3 with
        | '\x7d' :: r4 => some (JObj.cons ⟨k.data⟩ v' .nil, r4)
        | ',' :: r4 =>
          match parseFields1 f' r4 with
          | some (t, r5) => some (JObj.cons ⟨k.data⟩ v' t, r5)
          | none => none
        | x => none
      | none => none) = some (JObj.cons k v .nil, rest)
    rw [parseVal_ws]
    rw [rtVal v hwv f' ('\x7d' :: rest) (by rw [nfO] at hf; omega) rfl]
    show (match skipWs ('\x7d' :: rest) with
      | '\x7d' :: r4 => some (JObj.cons ⟨k.data⟩ v .nil, r4)
      | ',' :: r4 =>
        match parseFields1 f' r4 with
        | some (t, r5) => some (JObj.cons ⟨k.data⟩ v t, r5)
        | none => none
      | x => none) = some (JObj.cons k v .nil, rest)
    rw [skipWs_cons_of_neg _ _ (by decide)]
    rfl
  | k, v, .cons k2 v2 tl2, hw, f' + 1, rest, hf => by
    rw [wfO, Bool.and_eq_true] at hw
    obtain ⟨hwv, hwtl⟩ := hw
    rw [show serObj (.cons k v (.cons k2 v2 tl2)) =
      ('"' :: (escList k.data ++ '"' :: ':' :: ' ' :: serJ v)) ++
        ',' :: ' ' :: serObj (.cons k2 v2 tl2) from rfl]
    rw [parseFields1]
    rw [List.cons_append, List.cons_append]
    rw [skipWs_cons_of_neg _ _ (by decide)]
    rw [List.append_assoc, List.append_assoc]
    rw [show ('"' :: ':' :: ' ' :: serJ v) ++
        ((',' :: ' ' :: serObj (.cons k2 v2 tl2)) ++ '\x7d' :: rest) =
      '"' :: (':' :: ' ' :: (serJ v ++
        ',' :: ' ' :: (serObj (.cons k2 v2 tl2) ++ '\x7d' :: rest))) from by simp]
    show (match parseStrBody (escList k.data ++
        '"' :: ':' :: ' ' :: (serJ v ++
          ',' :: ' ' :: (serObj (.cons k2 v2 tl2) ++ '\x7d' :: rest))) with
      | some (k', r1) =>
        match skipWs r1 with
        | ':' :: r2 =>
          match parseVal f' r2 with
          | some (v', r3) =>
            match skipWs r3 with
            | '\x7d' :: r4 => some (JObj.cons ⟨k'⟩ v' .nil, r4)
            | ',' :: r4 =>
              match parseFields1 f' r4 with
              | some (t, r5) => some (JObj.cons ⟨k'⟩ v' t, r5)
              | none => none
            | x => none
          | none => none
        | x => none
      | none => none) = some (JObj.cons k v (JObj.cons k2 v2 tl2), rest)
    rw [rtStr k.data]
    show (match parseVal f' (' ' :: (serJ v ++
        ',' :: ' ' :: (serObj (.cons k2 v2 tl2) ++ '\x7d' :: rest))) with
      | some (v', r3) =>
        match skipWs r3 with
        | '\x7d' :: r4 => some (JObj.cons ⟨k.data⟩ v' .nil, r4)
        | ',' :: r4 =>
          match parseFields1 f' r4 with
          | some (t, r5) => some (JObj.cons ⟨k.data⟩ v' t, r5)
          | none => none
        | x => none
      | none => none) = some (JObj.cons k v (JObj.cons k2 v2 tl2), rest)
    rw [parseVal_ws]
    rw [rtVal v hwv f'
      (',' :: ' ' :: (serObj (.cons k2 v2 tl2) ++ '\x7d' :: rest))
      (by rw [nfO] at hf; omega) rfl]
    show (match skipWs (',' :: ' ' :: (serObj (.cons k2 v2 tl2) ++ '\x7d' :: rest)) with
      | '\x7d' :: r4 => some (JObj.cons ⟨k.data⟩ v .nil, r4)
      | ',' :: r4 =>
        match parseFields1 f' r4 with
        | some (t, r5) => some (JObj.cons ⟨k.data⟩ v t, r5)
        | none => none
      | x => none) = some (JObj.cons k v (JObj.cons k2 v2 tl2), rest)
    rw [skipWs_cons_of_neg _ _ (by decide)]
    show (match parseFields1 f' (' ' :: (serObj (.cons k2 v2 tl2) ++ '\x7d' :: rest)) with
      | some (t, r5) => some (JObj.cons ⟨k.data⟩ v t, r5)
      | none => none) = some (JObj.cons k v (JObj.cons k2 v2 tl2), rest)
    rw [parseFields1_ws]
    rw [rtObj k2 v2 tl2 hwtl f' rest (by rw [nfO] at hf; omega)]
termination_by k v tl _ _ _ _ => 1 + sizeOf v + sizeOf tl
decreasing_by all_goals (simp_wf; try omega)
end

mutual
/-- A well-formed value's serialization is at least as long as the fuel the
parser needs to re-read it. -/
theorem nfLeJ : ∀ (j : Json), wfJ j = true → nfJ j ≤ (serJ j).length
  | .null, _ => by decide
  | .bool true, _ => by decide
  | .bool false, _ => by decide
  | .num s, hw => by
    rw [show wfJ (.num s) = wfLex s.data from rfl] at hw
    cases hd : s.data with
    | nil => rw [hd] at hw; exact absurd hw (by simp [wfLex])
    | cons c cs =>
      rw [show serJ (.num s) = s.data from rfl, hd]
      simp [nfJ, List.length_cons]
  | .str s, _ => by
    rw [show serJ (.str s) = '"' :: (escList s.data ++ ['"']) from rfl]
    simp [nfJ]
  | .arr .nil, _ => by simp [nfJ, nfA, serJ, serArr]
  | .arr (.cons hd tl), hw => by
    have hwa : wfA (.cons hd tl) = true := hw
    have h := nfLeA hd tl hwa
    rw [show serJ (.arr (.cons hd tl)) = '[' :: (serArr (.cons hd tl) ++ [']'])
      from rfl]
    rw [show nfJ (.arr (.cons hd tl)) = nfA (.cons hd tl) + 1 from rfl]
    simp only [List.length_cons, List.length_append, List.length_singleton]
    omega
  | .obj .nil, _ => by simp [nfJ, nfO, serJ, serObj]
  | .obj (.cons k v tl), hw => by
    have hwo : wfO (.cons k v tl) = true := hw
    have h := nfLeO k v tl hwo
    rw [show serJ (.obj (.cons k v tl)) = '\x7b' :: (serObj (.cons k v tl) ++ ['\x7d'])
      from rfl]
    rw [show nfJ (.obj (.cons k v tl)) = nfO (.cons k v tl) + 1 from rfl]
    simp only [List.length_cons, List.length_append, List.length_singleton]
    omega
termination_by j _ => sizeOf j
decreasing_by all_goals (simp_wf; try omega)

theorem nfLeA : ∀ (hd : Json) (tl : JArr), wfA (.cons hd tl) = true →
    nfA (.cons hd tl) ≤ (serArr (.cons hd tl)).length + 1
  | hd, .nil, hw => by
    have hwhd : wfJ hd = true := by
      rw [wfA, Bool.and_eq_true] at hw
      exact hw.1
    have h := nfLeJ hd hwhd
    rw [show serArr (.cons hd .nil) = serJ hd from rfl]
    rw [show nfA (.cons hd .nil) = nfJ hd + nfA .nil + 1 from rfl]
    rw [show nfA JArr.nil = 0 from rfl]
    omega
  | hd, .cons hd2 tl2, hw => by
    rw [wfA, Bool.and_eq_true] at hw
    obtain ⟨hwhd, hwtl⟩ := hw
    have h1 := nfLeJ hd hwhd
    have h2 := nfLeA hd2 tl2 hwtl
    rw [show serArr (.cons hd (.cons hd2 tl2)) =
      serJ hd ++ ',' :: ' ' :: serArr (.cons hd2 tl2) from rfl]
    rw [show nfA (.cons hd (.cons hd2 tl2)) =
      nfJ hd + nfA (.cons hd2 tl2) + 1 from rfl]
    simp only [List.length_append, List.length_cons]
    omega
termination_by hd tl _ => 1 + sizeOf hd + sizeOf tl
decreasing_by all_goals (simp_wf; try omega)

theorem nfLeO : ∀ (k : String) (v : Json) (tl : JObj), wfO (.cons k v tl) = true →
    nfO (.cons k v tl) ≤ (serObj (.cons k v tl)).length + 1
  | k, v, .nil, hw => by
    have hwv : wfJ v = true := by
      rw [wfO, Bool.and_eq_true] at hw
      exact hw.1
    have h := nfLeJ v hwv
    rw [show serObj (.cons k v .nil) =
      '"' :: (escList k.data ++ '"' :: ':' :: ' ' :: serJ v) from rfl]
    rw [show nfO (.cons k v .nil) = nfJ v + nfO .nil + 1 from rfl]
    rw [show nfO JObj.nil = 0 from rfl]
    simp only [List.length_cons, List.length_append]
    omega
  | k, v, .cons k2 v2 tl2, hw => by
    rw [wfO, Bool.and_eq_true] at hw
    obtain ⟨hwv, hwtl⟩ := hw
    have h1 := nfLeJ v hwv
    have h2 := nfLeO k2 v2 tl2 hwtl
    rw [show serObj (.cons k v (.cons k2 v2 tl2)) =
      ('"' :: (escList k.data ++ '"' :: ':' :: ' ' :: serJ v)) ++
        ',' :: ' ' :: serObj (.cons k2 v2 tl2) from rfl]
    rw [show nfO (.cons k v (.cons k2 v2 tl2)) =
      nfJ v + nfO (.cons k2 v2 tl2) + 1 from rfl]
    simp only [List.length_cons, List.length_append]
    omega
termination_by k v tl _ => 1 + sizeOf v + sizeOf tl
decreasing_by all_goals (simp_wf; try omega)
end

/-- `json.loads` inverts `json.dumps` on well-formed values. -/
theorem jsonLoads_dumps (j : Json) (hw : wfJ j = true) :
    jsonLoads (jsonDumps j) = some j := by
  have hfuel : nfJ j ≤ (serJ j).length + 1 := Nat.le_trans (nfLeJ j hw) (Nat.le_succ _)
  have h := rtVal j hw ((serJ j).length + 1) [] hfuel rfl
  rw [List.append_nil] at h
  show (match parseVal ((String.mk (serJ j)).data.length + 1) (String.mk (serJ j)).data with
    | some (j', rest) => if (skipWs rest).isEmpty then some j' else none
    | none => none) = some j
  rw [show (String.mk (serJ j)).data = serJ j from rfl]
  rw [h]
  rfl

/-- Whatever `json.loads` returns is well-formed. -/
theorem jsonLoads_wf (s : String) (j : Json) (h : jsonLoads s = some j) :
    wfJ j = true := by
  rw [jsonLoads] at h
  split at h
  · rename_i j' rest heq
    split at h
    · injection h with h'
      subst h'
      exact (parse_wf (s.data.length + 1)).1 s.data j' rest heq
    · simp at h
  · simp at h

/-- The last character of a serialized well-formed value (as the head of the
reversed list) is never Python whitespace. -/
theorem serJ_rev (j : Json) (hw : wfJ j = true) :
    ∃ d m, (serJ j).reverse = d :: m ∧ pyWs d = false := by
  cases j with
  | null => exact ⟨'l', ['l', 'u', 'n'], rfl, by decide⟩
  | bool b =>
    cases b with
    | true => exact ⟨'e', ['u', 'r', 't'], rfl, by decide⟩
    | false => exact ⟨'e', ['s', 'l', 'a', 'f'], rfl, by decide⟩
  | num s =>
    rw [show wfJ (.num s) = wfLex s.data from rfl] at hw
    cases hd : s.data with
    | nil => rw [hd] at hw; exact absurd hw (by simp [wfLex])
    | cons c cs =>
      rw [hd] at hw
      simp only [wfLex, Bool.and_eq_true] at hw
      obtain ⟨hstart, hall⟩ := hw
      cases hrev : (c :: cs).reverse with
      | nil => exact absurd (congrArg List.length hrev) (by simp)
      | cons d m =>
        refine ⟨d, m, by rw [show serJ (.num s) = s.data from rfl, hd, hrev], ?_⟩
        have hdMem : d ∈ (c :: cs).reverse := by rw [hrev]; exact List.mem_cons_self d m
        rw [List.mem_reverse] at hdMem
        exact pyWs_false_of_numChar d (by
          rw [List.all_eq_true] at hall
          exact hall d hdMem)
  | str s =>
    refine ⟨'"', (escList s.data).reverse ++ ['"'], ?_, by decide⟩
    rw [show serJ (.str s) = '"' :: (escList s.data ++ ['"']) from rfl]
    simp
  | arr a =>
    refine ⟨']', (serArr a).reverse ++ ['['], ?_, by decide⟩
    rw [show serJ (.arr a) = '[' :: (serArr a ++ [']']) from rfl]
    simp
  | obj o =>
    refine ⟨'\x7d', (serObj o).reverse ++ ['\x7b'], ?_, by decide⟩
    rw [show serJ (.obj o) = '\x7b' :: (serObj o ++ ['\x7d']) from rfl]
    simp

/-- `str.strip()` is the identity on a list whose two ends are not
whitespace. -/
theorem pyStripL_id (c : Char) (l : List Char) (hc : pyWs c = false)
    (d : Char) (m : List Char) (hrev : (c :: l).reverse = d :: m)
    (hd : pyWs d = false) : pyStripL (c :: l) = c :: l := by
  rw [pyStripL]
  rw [List.dropWhile_cons]
  simp only [hc, Bool.false_eq_true, if_false]
  rw [hrev, List.dropWhile_cons]
  simp only [hd, Bool.false_eq_true, if_false]
  rw [← hrev, List.reverse_reverse]

/-- Does the text start with a markdown fence? (model of
`text.startswith("```")`). -/
def fenceStart (l : List Char) : Bool :=
  match l with
  | c1 :: c2 :: c3 :: _ => c1 = '`' && c2 = '`' && c3 = '`'
  | _ => false

theorem fenceStart_false_of_head (c : Char) (l : List Char) (hc : c ≠ '`') :
    fenceStart (c :: l) = false := by
  cases l with
  | nil => rfl
  | cons c2 l2 =>
    cases l2 with
    | nil => rfl
    | cons c3 l3 =>
      show (decide (c = '`') && _ && _) = false
      simp [hc]

/-- Stripping is the identity on serializer output. -/
theorem pyStripL_serJ (j : Json) (hw : wfJ j = true) :
    pyStripL (serJ j) = serJ j := by
  obtain ⟨c, cs, hser, _, hpy, _, _, _⟩ := serJ_head j hw
  obtain ⟨d, m, hrev, hd⟩ := serJ_rev j hw
  rw [hser] at hrev ⊢
  exact pyStripL_id c cs hpy d m hrev hd

/-- Model of the repeated response-normalization code: strip the text and, if
it starts with a fence, drop the first and last lines (`lines[1:-1]`),
keeping everything between verbatim. -/
def normalizeFence (t : String) : String :=
  let s := pyStripL t.data
  if fenceStart s then ⟨joinWithCharL '\n' (((splitOnCharL '\n' s).drop 1).dropLast)⟩
  else ⟨s⟩

/-- Model of `parse_json_response` from `src/api/index.py` (the identical
normalization is inlined in `analyze_with_gemini` and
`regenerate_with_gemini` in `src/index.py`). -/
def parse_json_response (t : String) : Option Json :=
  jsonLoads (normalizeFence t)

theorem normalizeFence_dumps (j : Json) (hw : wfJ j = true) :
    normalizeFence (jsonDumps j) = jsonDumps j := by
  show (if fenceStart (pyStripL (jsonDumps j).data) then
    (⟨joinWithCharL '\n' (((splitOnCharL '\n' (pyStripL (jsonDumps j).data)).drop
      1).dropLast)⟩ : String)
    else ⟨pyStripL (jsonDumps j).data⟩) = jsonDumps j
  rw [show (jsonDumps j).data = serJ j from rfl]
  rw [pyStripL_serJ j hw]
  obtain ⟨c, cs, hser, _, _, _, _, htick⟩ := serJ_head j hw
  rw [hser, fenceStart_false_of_head c cs htick]
  simp only [Bool.false_eq_true, if_false]
  rw [← hser]
  rfl

/-! ## Model of `base64.b64decode` (Python standard library)

With the default `validate=False`, characters outside the alphabet are
discarded; the remainder must consist of well-padded four-character groups.
Bytes are modelled as `Nat`s below 256. -/

def b64char (c : Char) : Bool :=
  ('A' ≤ c && c ≤ 'Z') || ('a' ≤ c && c ≤ 'z') || ('0' ≤ c && c ≤ '9') ||
    c = '+' || c = '/'

def b64val (c : Char) : Nat :=
  if 'A' ≤ c && c ≤ 'Z' then c.toNat - 65
  else if 'a' ≤ c && c ≤ 'z' then c.toNat - 97 + 26
  else if '0' ≤ c && c ≤ '9' then c.toNat - 48 + 52
  else if c = '+' then 62
  else 63

def b64Group3 (a b c d : Char) : List Nat :=
  let n := b64val a * 262144 + b64val b * 4096 + b64val c * 64 + b64val d
  [n / 65536, n / 256 % 256, n % 256]

def b64Groups : List Char → Option (List Nat)
  | [] => some []
  | a :: b :: c :: d :: rest =>
    if a = '=' || b = '=' then none
    else if c = '=' then
      if d = '=' && rest.isEmpty then
        some [(b64val a * 262144 + b64val b * 4096) / 65536]
      else none
    else if d = '=' then
      if rest.isEmpty then
        let n := b64val a * 262144 + b64val b * 4096 + b64val c * 64
        some [n / 65536, n / 256 % 256]
      else none
    else
      match b64Groups rest with
      | some bs => some (b64Group3 a b c d ++ bs)
      | none => none
  | _ => none

/-- Model of `base64.b64decode(s)`; `none` models a raised `binascii.Error`. -/
def b64decodeM (s : String) : Option (List Nat) :=
  b64Groups (s.data.filter (fun c => b64char c || c = '='))

/-- Model of Python `str.startswith`. -/
def pyStartsWith (p s : String) : Bool := p.data.isPrefixOf s.data

/-- Model of `decode_base64_image` from `src/api/index.py`: strip the
data-URL header (`image_data.split(",")[1]`) when the string starts with
`"data:"`, then base64-decode.  `none` models any raised exception,
including the `IndexError` when a `"data:"` string has no comma. -/
def decode_base64_image (s : String) : Option (List Nat) :=
  if pyStartsWith "data:" s then
    match (splitOnCharL ',' s.data)[1]? with
    | some payload => b64decodeM ⟨payload⟩
    | none => none
  else b64decodeM s

/-- Model of `AnalyzeRequest.validate_image` from `src/index.py`: same
data-URL stripping, then the stripped string must base64-decode; the
validator returns the stripped string. -/
def validate_image (v : String) : Option String :=
  if pyStartsWith "data:" v then
    match (splitOnCharL ',' v.data)[1]? with
    | some payload =>
      match b64decodeM ⟨payload⟩ with
      | some _ => some ⟨payload⟩
      | none => none
    | none => none
  else
    match b64decodeM v with
    | some _ => some v
    | none => none

/-! ## Indented serialization (model of `json.dumps(x, indent=2)`)

Only used opaquely inside prompt texts; no theorem depends on its output. -/

def indentSp (n : Nat) : List Char := List.replicate n ' '

mutual
def ser2J (ind : Nat) : Json → List Char
  | .arr .nil => ['[', ']']
  | .obj .nil => ['\x7b', '\x7d']
  | .arr (.cons hd tl) =>
    '[' :: '\n' :: (ser2Arr (ind + 2) (.cons hd tl) ++ '\n' :: (indentSp ind ++ [']']))
  | .obj (.cons k v tl) =>
    '\x7b' :: '\n' ::
      (ser2Obj (ind + 2) (.cons k v tl) ++ '\n' :: (indentSp ind ++ ['\x7d']))
  | j => serJ j

def ser2Arr (ind : Nat) : JArr → List Char
  | .nil => []
  | .cons j .nil => indentSp ind ++ ser2J ind j
  | .cons j (.cons j2 t) =>
    (indentSp ind ++ ser2J ind j) ++ ',' :: '\n' :: ser2Arr ind (.cons j2 t)

def ser2Obj (ind : Nat) : JObj → List Char
  | .nil => []
  | .cons k v .nil =>
    indentSp ind ++ '"' :: (escList k.data ++ '"' :: ':' :: ' ' :: ser2J ind v)
  | .cons k v (.cons k2 v2 t) =>
    (indentSp ind ++ '"' :: (escList k.data ++ '"' :: ':' :: ' ' :: ser2J ind v)) ++
      ',' :: '\n' :: ser2Obj ind (.cons k2 v2 t)
end

def jsonDumpsIndent2 (j : Json) : String := ⟨ser2J 0 j⟩

/-- Model of Python `str()` as used when interpolating request fields into a
prompt template.  The claims only exercise string fields; container values
are rendered as their JSON text (Python's `repr` quoting differs, which no
claim observes). -/
def pyStr : Json → String
  | .str s => s
  | .num s => s
  | .bool true => "True"
  | .bool false => "False"
  | .null => "None"
  | .arr a => jsonDumps (.arr a)
  | .obj o => jsonDumps (.obj o)

/-! ## Prompt templates

Transcribed from `src/prompts.py` and `src/api/index.py`.  Python
`TEMPLATE.format(...)` on a fixed literal template is embedded as string
concatenation, which is total by construction; `\x7b`/`\x7d` denote the
literal braces that `{{`/`}}` produce under `format`.  The
`src/api/index.py` `ANALYZE_PROMPT` is never formatted, so its doubled
braces stay doubled. -/

def ANALYZE_PROMPT_fmt (existing_entities : String) : String :=
  "You are an AI assistant that analyzes screenshots and extracts structured information.

## Task
1. Perform OCR to extract all visible text from the image
2. Identify the main entity type (e.g., hotel, restaurant, job posting, product, article, etc.)
3. Extract structured information based on the entity type
4. Compare with existing entities to determine if this is the same entity (different page/view)

## Existing Entities in Session
" ++ existing_entities ++ "

## Output Format
Return a valid JSON object with this structure:
\x7b
  \"raw_text\": \"All extracted text from the image...\",
  \"entity\": \x7b
    \"type\": \"hotel|restaurant|job|product|article|other\",
    \"is_new\": true|false,
    \"merge_with_id\": \"uuid if merging with existing entity, null otherwise\",
    \"confidence\": 0.0-1.0,
    \"data\": \x7b
      // Structured data based on entity type
      // For hotel: name, price, location, amenities[], rating, etc.
      // For job: title, company, salary, location, requirements[], etc.
      // For product: name, price, brand, features[], specs, etc.
      // For restaurant: name, cuisine, price_range, location, rating, etc.
      // Include all relevant fields found in the screenshot
    \x7d
  \x7d
\x7d

## Rules
- Extract as much structured information as possible
- If the screenshot shows the same entity as an existing one (same hotel, job, etc.), set is_new=false and provide merge_with_id
- Use context clues to determine entity type (URL, layout, keywords)
- For prices, include currency symbol
- For ratings, normalize to a consistent format
- Return ONLY valid JSON, no markdown code blocks
"

def REGENERATE_PROMPT_fmt (remaining_data deleted_ids : String) : String :=
  "You are an AI assistant that synthesizes information from multiple screenshots.

## Task
Given the extracted data from multiple screenshots (after some deletions), create a unified summary.

## Remaining Data
" ++ remaining_data ++ "

## Deleted Item IDs (exclude these)
" ++ deleted_ids ++ "

## Output Format
Return a valid JSON array with consolidated entities:
[
  \x7b
    \"entity_type\": \"hotel|restaurant|job|product|article|other\",
    \"source_screenshot_ids\": [\"uuid1\", \"uuid2\"],
    \"data\": \x7b
      // Merged and consolidated data from all sources
      // Combine information, prefer more detailed/recent data
      // Remove any contradictory information from deleted sources
    \x7d
  \x7d
]

## Rules
- Merge information from multiple screenshots of the same entity
- Remove any data that came exclusively from deleted screenshots
- Consolidate duplicate information
- Keep the most complete and accurate version of each field
- Return ONLY valid JSON, no markdown code blocks
"

def API_ANALYZE_PROMPT : String :=
  "Analyze this screenshot and extract structured information.

## Task
1. Perform OCR to extract all visible text from the image
2. Identify the main entity types visible (hotel, restaurant, job posting, product, article, etc.)
3. Write a 1-3 sentence summary of what the screenshot shows. Use objective language (e.g., \"A screenshot of...\", \"A photo showing...\"). Do NOT use phrases like \"The user is looking at\" or \"The image displays\".
4. Extract structured entities with their attributes
5. Suggest an appropriate category and notebook title

## Categories
- trip-planning: Hotels, flights, restaurants, travel
- shopping: Products, electronics, clothing
- job-search: Job postings, careers
- research: Articles, documentation
- content-writing: Writing, notes, drafts
- productivity: Tasks, calendars, projects
- other: Generic or unclear content

## Output Format
Return a valid JSON object:
\x7b\x7b
  \"rawText\": \"Full OCR text extracted from screenshot\",
  \"summary\": \"1-3 sentence objective description (e.g., 'A screenshot of...'). Do NOT say 'The user is looking at...'.\",
  \"category\": \"trip-planning|shopping|job-search|research|content-writing|productivity|other\",
  \"entities\": [
    \x7b\x7b
      \"type\": \"hotel|product|job|flight|restaurant|article|other\",
      \"title\": \"Entity name/title\",
      \"attributes\": \x7b\x7b\x7d\x7d
    \x7d\x7d
  ],
  \"suggestedNotebookTitle\": \"Short descriptive title for this content\"
\x7d\x7d

## Rules
- Extract as much structured information as possible
- For prices, include currency symbol
- For ratings, normalize to a consistent format (e.g., \"4.8\")
- Return ONLY valid JSON, no markdown code blocks
"

def API_REGENERATE_PROMPT_fmt
    (session_id session_category session_summary screens_data : String) : String :=
  "You are an AI assistant for a screenshot capture app. The user has captured screenshots and is now asking a question or wants context about their session.

## Session Context
Category: " ++ session_category ++ "
Previous Summary: " ++ session_summary ++ "

## Captured Screenshots
" ++ screens_data ++ "

## Task
Based on the captured screenshots and their extracted data, respond to the user's context or question embedded in the session summary.

## Output Format
Return a valid JSON object:
\x7b
  \"sessionId\": \"" ++ session_id ++ "\",
  \"sessionSummary\": \"AI response or updated summary based on the screenshots and user's question\",
  \"sessionCategory\": \"" ++ session_category ++ "\",
  \"entities\": [],
  \"suggestedNotebookTitle\": \"Suggested title for this session\"
\x7d

## Rules
- Merge duplicate entities from different screenshots
- Provide helpful, conversational responses
- Return ONLY valid JSON, no markdown code blocks
"

def API_SUMMARIZE_PROMPT_fmt (session_name entities_data : String) : String :=
  "Generate a comprehensive summary of this research/capture session.

## Session Name
" ++ session_name ++ "

## Entities to Summarize
" ++ entities_data ++ "

## Task
Create a condensed but comprehensive summary with:
1. A 2-4 sentence overview
2. Top 3-5 key highlights
3. 2-3 actionable recommendations
4. Suggested follow-up queries
5. Key topics/tags

## Output Format
Return a valid JSON object:
\x7b
  \"condensedSummary\": \"2-4 sentence AI-generated overview\",
  \"keyHighlights\": [\"Highlight 1\", \"Highlight 2\", \"Highlight 3\"],
  \"recommendations\": [\"Recommendation 1\", \"Recommendation 2\"],
  \"mergedEntities\": [],
  \"suggestedTitle\": \"Concise title for this session\",
  \"suggestedQueries\": [\"Follow-up question 1?\", \"Follow-up question 2?\"],
  \"keywords\": [\"keyword1\", \"keyword2\", \"keyword3\"]
\x7d

## Rules
- Be concise but informative
- Make recommendations actionable
- Return ONLY valid JSON, no markdown code blocks
"

/-! ## The external capability and HTTP responses

The Gemini credential is a Boolean (`GEMINI_API_KEY` present or not) and one
model invocation is an injected oracle outcome: either the returned text or
a raised exception.  A handler result is an HTTP status plus a JSON body
(`flask.jsonify`).  `request.get_json()` is modelled as `Option JObj`:
`none` for an absent/null body, otherwise the parsed JSON object (the claims
only involve object-shaped bodies). -/

/-- Outcome of one `model.generate_content` call. -/
inductive Gemini where
  | text (t : String) : Gemini
  | failure : Gemini

structure Response where
  status : Nat
  body : Json

/-! ## `src/api/index.py` (namespace `ApiIndex`) -/

namespace ApiIndex

/-- The `try:` body of the `analyze` handler after the field check:
decode the image, require the credential, invoke the model, parse.
`none` models any raised exception. -/
def analyze_run (key : Bool) (gem : Gemini) (d : JObj) : Option Json :=
  match d.find "image" with
  | some (.str img) =>
    match decode_base64_image img with
    | some _image_bytes =>
      if key then
        match gem with
        | .text t => parse_json_response t
        | .failure => none
      else none
    | none => none
  | _ => none

/-- The fixed fallback body of `/api/analyze`. -/
def analyzeFallback : Json :=
  .obj (jObjOf [("rawText", .str ""), ("summary", .str ""),
    ("category", .str "other"), ("entities", .arr .nil),
    ("suggestedNotebookTitle", .null)])

/-- The `/api/analyze` handler of `src/api/index.py`. -/
def analyze (key : Bool) (gem : Gemini) (data : Option JObj) : Response :=
  match data with
  | none => ⟨400, .obj (jObjOf [("error", .str "Missing 'image' field")])⟩
  | some d =>
    if d.isNil || (d.find "image").isNone then
      ⟨400, .obj (jObjOf [("error", .str "Missing 'image' field")])⟩
    else
      match analyze_run key gem d with
      | some j => ⟨200, j⟩
      | none => ⟨200, analyzeFallback⟩

/-- The `try:` body of the `regenerate` handler after the field checks:
read the context fields (with their `.get` defaults), build the prompt,
require the credential, invoke the model, parse.  A non-object
`previousSession` raises (`.get` on a non-dict) and is a failure. -/
def regenerate_run (key : Bool) (gem : Gemini) (d : JObj) : Option Json :=
  match d.find "sessionId" with
  | some sid =>
    let screens := d.findD "screens" (.arr .nil)
    match d.findD "previousSession" (.obj .nil) with
    | .obj prev =>
      let screens_data := jsonDumpsIndent2 screens
      let session_summary := pyStr (prev.findD "sessionSummary" (.str "No previous context"))
      let session_category := pyStr (prev.findD "sessionCategory" (.str "other"))
      let _prompt := API_REGENERATE_PROMPT_fmt (pyStr sid) session_category
        session_summary screens_data
      if key then
        match gem with
        | .text t => parse_json_response t
        | .failure => none
      else none
    | _ => none
  | none => none

/-- The `/api/regenerate` handler of `src/api/index.py`; its fallback body
echoes the request's `sessionId` via `data.get("sessionId", "")`. -/
def regenerate (key : Bool) (gem : Gemini) (data : Option JObj) : Response :=
  match data with
  | none => ⟨400, .obj (jObjOf [("error", .str "Missing 'sessionId' field")])⟩
  | some d =>
    if d.isNil || (d.find "sessionId").isNone then
      ⟨400, .obj (jObjOf [("error", .str "Missing 'sessionId' field")])⟩
    else if (d.find "screens").isNone then
      ⟨400, .obj (jObjOf [("error", .str "Missing 'screens' field")])⟩
    else
      match regenerate_run key gem d with
      | some j => ⟨200, j⟩
      | none =>
        ⟨200, .obj (jObjOf [("sessionId", d.findD "sessionId" (.str "")),
          ("sessionSummary", .str ""), ("sessionCategory", .str "other"),
          ("entities", .arr .nil), ("suggestedNotebookTitle", .null)])⟩

/-- The `try:` body of the `summarize` handler after the field checks. -/
def summarize_run (key : Bool) (gem : Gemini) (d : JObj) : Option Json :=
  match d.find "sessionName", d.find "entities" with
  | some session_name, some entities =>
    let entities_data := jsonDumpsIndent2 entities
    let _prompt := API_SUMMARIZE_PROMPT_fmt (pyStr session_name) entities_data
    if key then
      match gem with
      | .text t => parse_json_response t
      | .failure => none
    else none
  | _, _ => none

/-- The fixed fallback body of `/api/summarize`. -/
def summarizeFallback : Json :=
  .obj (jObjOf [("condensedSummary", .str ""), ("keyHighlights", .arr .nil),
    ("recommendations", .arr .nil), ("mergedEntities", .arr .nil),
    ("suggestedTitle", .str ""), ("suggestedQueries", .arr .nil),
    ("keywords", .arr .nil)])

/-- The `/api/summarize` handler of `src/api/index.py`. -/
def summarize (key : Bool) (gem : Gemini) (data : Option JObj) : Response :=
  match data with
  | none => ⟨400, .obj (jObjOf [("error", .str "Missing 'sessionId' field")])⟩
  | some d =>
    if d.isNil || (d.find "sessionId").isNone then
      ⟨400, .obj (jObjOf [("error", .str "Missing 'sessionId' field")])⟩
    else if (d.find "sessionName").isNone then
      ⟨400, .obj (jObjOf [("error", .str "Missing 'sessionName' field")])⟩
    else if (d.find "entities").isNone then
      ⟨400, .obj (jObjOf [("error", .str "Missing 'entities' field")])⟩
    else
      match summarize_run key gem d with
      | some j => ⟨200, j⟩
      | none => ⟨200, summarizeFallback⟩

/-- The `/api/health` handler. -/
def health (key : Bool) : Response :=
  ⟨200, .obj (jObjOf [("status", .str "ok"), ("gemini_configured", .bool key)])⟩

end ApiIndex

/-! ## `src/index.py` (namespace `RootIndex`)

Pydantic request models are embedded as structures with a parsing function
returning either the validated request or the list of offending field names
(an abstraction of `ValidationError.errors()`, whose entries name the field
in their `loc`). -/

namespace RootIndex

structure ExistingEntity where
  id : String
  type' : String
  data : JObj

structure ScreenshotData where
  id : String
  raw_text : String
  data : JObj

structure AnalyzeRequest where
  image : String
  session_id : String
  existing_entities : List ExistingEntity

structure RegenerateRequest where
  session_id : String
  deleted_ids : List String
  remaining_screenshots : List ScreenshotData

def parseEntity (j : Json) : Option ExistingEntity :=
  match j with
  | .obj o =>
    match o.find "id", o.find "type", o.find "data" with
    | some (.str i), some (.str t), some (.obj dd) => some ⟨i, t, dd⟩
    | _, _, _ => none
  | _ => none

def parseEntityList : JArr → Option (List ExistingEntity)
  | .nil => some []
  | .cons j t =>
    match parseEntity j, parseEntityList t with
    | some e, some es => some (e :: es)
    | _, _ => none

def parseStrList : JArr → Option (List String)
  | .nil => some []
  | .cons (.str s) t => (parseStrList t).map (s :: ·)
  | .cons _ _ => none

def parseScreenshot (j : Json) : Option ScreenshotData :=
  match j with
  | .obj o =>
    match o.find "id", o.find "raw_text", o.find "data" with
    | some (.str i), some (.str t), some (.obj dd) => some ⟨i, t, dd⟩
    | _, _, _ => none
  | _ => none

def parseScreenshotList : JArr → Option (List ScreenshotData)
  | .nil => some []
  | .cons j t =>
    match parseScreenshot j, parseScreenshotList t with
    | some s, some ss => some (s :: ss)
    | _, _ => none

def errList {α : Type} : Except (List String) α → List String
  | .error e => e
  | .ok _ => []

/-- Model of `AnalyzeRequest(**data)`: `image` must be a string passing
`validate_image` (which returns the data-URL-stripped payload),
`session_id` a string, `existing_entities` an optional list of entity
objects (default `[]`).  Errors collect the offending field names. -/
def AnalyzeRequest.mk? (d : JObj) : Except (List String) AnalyzeRequest :=
  let imgE : Except (List String) String :=
    match d.find "image" with
    | some (.str s) =>
      match validate_image s with
      | some v => .ok v
      | none => .error ["image"]
    | _ => .error ["image"]
  let sidE : Except (List String) String :=
    match d.find "session_id" with
    | some (.str s) => .ok s
    | _ => .error ["session_id"]
  let entE : Except (List String) (List ExistingEntity) :=
    match d.find "existing_entities" with
    | none => .ok []
    | some (.arr a) =>
      match parseEntityList a with
      | some l => .ok l
      | none => .error ["existing_entities"]
    | some _ => .error ["existing_entities"]
  match imgE, sidE, entE with
  | .ok i, .ok s, .ok e => .ok ⟨i, s, e⟩
  | i, s, e => .error (errList i ++ errList s ++ errList e)

/-- Model of `RegenerateRequest(**data)`. -/
def RegenerateRequest.mk? (d : JObj) : Except (List String) RegenerateRequest :=
  let sidE : Except (List String) String :=
    match d.find "session_id" with
    | some (.str s) => .ok s
    | _ => .error ["session_id"]
  let delE : Except (List String) (List String) :=
    match d.find "deleted_ids" with
    | some (.arr a) =>
      match parseStrList a with
      | some l => .ok l
      | none => .error ["deleted_ids"]
    | _ => .error ["deleted_ids"]
  let remE : Except (List String) (List ScreenshotData) :=
    match d.find "remaining_screenshots" with
    | some (.arr a) =>
      match parseScreenshotList a with
      | some l => .ok l
      | none => .error ["remaining_screenshots"]
    | _ => .error ["remaining_screenshots"]
  match sidE, delE, remE with
  | .ok s, .ok dl, .ok r => .ok ⟨s, dl, r⟩
  | s, dl, r => .error (errList s ++ errList dl ++ errList r)

/-- The dict the handler builds from a validated entity:
`{"id": e.id, "type": e.type, "data": e.data}`. -/
def ExistingEntity.toJson (e : ExistingEntity) : Json :=
  .obj (jObjOf [("id", .str e.id), ("type", .str e.type'), ("data", .obj e.data)])

/-- The dict the handler builds from a validated screenshot:
`{"id": s.id, "raw_text": s.raw_text, "data": s.data}`. -/
def ScreenshotData.toJson (s : ScreenshotData) : Json :=
  .obj (jObjOf [("id", .str s.id), ("raw_text", .str s.raw_text),
    ("data", .obj s.data)])

/-- A raised Python exception, as the handler's `except` clauses
distinguish them: a `ValueError` carrying a message, or anything else. -/
inductive PyErr where
  | valueError (msg : String) : PyErr
  | unexpected : PyErr

/-- `json.dumps(existing_entities, indent=2) if existing_entities else
"None"`. -/
def entities_str_of (existing : List Json) : String :=
  if existing.isEmpty then "None" else jsonDumpsIndent2 (.arr (jArrOf existing))

/-- Model of `analyze_with_gemini` from `src/index.py`: requires the
credential, builds the prompt (total), decodes the image, invokes the
model, strips fences and parses.  A parse failure raises a `ValueError`
whose message starts with `"Invalid JSON response from Gemini"` (the
embedded message omits the appended exception detail). -/
def analyze_with_gemini (key : Bool) (gem : Gemini) (image_base64 : String)
    (existing_entities : List Json) : Except PyErr Json :=
  if key then
    let entities_str := entities_str_of existing_entities
    let _prompt := ANALYZE_PROMPT_fmt entities_str
    match b64decodeM image_base64 with
    | some _image_data =>
      match gem with
      | .text t =>
        match parse_json_response t with
        | some j => .ok j
        | none => .error (.valueError "Invalid JSON response from Gemini")
      | .failure => .error .unexpected
    | none => .error .unexpected
  else .error (.valueError "GEMINI_API_KEY not configured")

/-- Model of `regenerate_with_gemini` from `src/index.py`: requires the
credential, serializes the surviving screenshots and the deleted ids into
the prompt, invokes the model once, parses its reply — and returns that
reply verbatim: no local validation of `source_screenshot_ids` occurs. -/
def regenerate_with_gemini (key : Bool) (gem : Gemini) (remaining_data : List Json)
    (deleted_ids : List String) : Except PyErr Json :=
  if key then
    let remaining_str := jsonDumpsIndent2 (.arr (jArrOf remaining_data))
    let deleted_str := jsonDumps (.arr (jArrOf (deleted_ids.map .str)))
    let _prompt := REGENERATE_PROMPT_fmt remaining_str deleted_str
    match gem with
    | .text t =>
      match parse_json_response t with
      | some j => .ok j
      | none => .error (.valueError "Invalid JSON response from Gemini")
    | .failure => .error .unexpected
  else .error (.valueError "GEMINI_API_KEY not configured")

/-- The `/api/analyze` handler of `src/index.py`: pydantic validation
failures and `ValueError`s map to HTTP 400, other exceptions to HTTP 500,
and a parsed model reply is returned verbatim with HTTP 200. -/
def analyze (key : Bool) (gem : Gemini) (data : Option JObj) : Response :=
  match data with
  | none => ⟨400, .obj (jObjOf [("error", .str "No JSON data provided")])⟩
  | some d =>
    if d.isNil then
      ⟨400, .obj (jObjOf [("error", .str "No JSON data provided")])⟩
    else
      match AnalyzeRequest.mk? d with
      | .error errs =>
        ⟨400, .obj (jObjOf [("error", .str "Invalid request"),
          ("details", .arr (jArrOf (errs.map .str)))])⟩
      | .ok req =>
        match analyze_with_gemini key gem req.image
            (req.existing_entities.map ExistingEntity.toJson) with
        | .ok j => ⟨200, j⟩
        | .error (.valueError m) => ⟨400, .obj (jObjOf [("error", .str m)])⟩
        | .error .unexpected =>
          ⟨500, .obj (jObjOf [("error", .str "Internal server error")])⟩

/-- The `/api/regenerate` handler of `src/index.py`: wraps the parsed model
reply verbatim as `{"summary": result}` with HTTP 200. -/
def regenerate (key : Bool) (gem : Gemini) (data : Option JObj) : Response :=
  match data with
  | none => ⟨400, .obj (jObjOf [("error", .str "No JSON data provided")])⟩
  | some d =>
    if d.isNil then
      ⟨400, .obj (jObjOf [("error", .str "No JSON data provided")])⟩
    else
      match RegenerateRequest.mk? d with
      | .error errs =>
        ⟨400, .obj (jObjOf [("error", .str "Invalid request"),
          ("details", .arr (jArrOf (errs.map .str)))])⟩
      | .ok req =>
        match regenerate_with_gemini key gem
            (req.remaining_screenshots.map ScreenshotData.toJson)
            req.deleted_ids with
        | .ok j => ⟨200, .obj (jObjOf [("summary", j)])⟩
        | .error (.valueError m) => ⟨400, .obj (jObjOf [("error", .str m)])⟩
        | .error .unexpected =>
          ⟨500, .obj (jObjOf [("error", .str "Internal server error")])⟩

/-- The `/api/health` handler of `src/index.py`. -/
def health (key : Bool) : Response :=
  ⟨200, .obj (jObjOf [("status", .str "ok"), ("gemini_configured", .bool key)])⟩

end RootIndex

/-! ## Helper lemmas for the claim theorems -/

theorem find_isNil (o : JObj) (k : String) (v : Json) (h : o.find k = some v) :
    o.isNil = false := by
  cases o with
  | nil => simp [JObj.find] at h
  | cons k' v' t => rfl

theorem isPrefixOf_append_self (l t : List Char) : l.isPrefixOf (l ++ t) = true := by
  induction l with
  | nil => simp [List.isPrefixOf]
  | cons a l' ih => simp [List.isPrefixOf, ih]

theorem splitOnCharL_no_sep (sep : Char) (l : List Char) (h : sep ∉ l) :
    splitOnCharL sep l = [l] := by
  induction l with
  | nil => rfl
  | cons c t ih =>
    have hc : ¬(c = sep) := fun he => h (he ▸ List.mem_cons_self c t)
    have ht : sep ∉ t := fun hm => h (List.mem_cons_of_mem c hm)
    rw [splitOnCharL]
    simp only [hc, if_false, ih ht]

theorem splitOnCharL_append_sep (sep : Char) (l1 l2 : List Char) (h1 : sep ∉ l1) :
    splitOnCharL sep (l1 ++ sep :: l2) = l1 :: splitOnCharL sep l2 := by
  induction l1 with
  | nil =>
    rw [List.nil_append, splitOnCharL]
    simp
  | cons c t ih =>
    have hc : ¬(c = sep) := fun he => h1 (he ▸ List.mem_cons_self c t)
    have ht : sep ∉ t := fun hm => h1 (List.mem_cons_of_mem c hm)
    rw [List.cons_append, splitOnCharL]
    simp only [hc, if_false, ih ht]

theorem validate_image_decodes (s v : String) (h : validate_image s = some v) :
    (b64decodeM v).isSome = true := by
  rw [validate_image] at h
  split at h
  · split at h
    · split at h
      · rename_i payload hp bs hb
        injection h with h'
        subst h'
        rw [hb]
        rfl
      · simp at h
    · simp at h
  · split at h
    · rename_i bs hb
      injection h with h'
      subst h'
      rw [hb]
      rfl
    · simp at h

theorem analyzeRequest_mk_ok_image (d : JObj) (req : RootIndex.AnalyzeRequest)
    (h : RootIndex.AnalyzeRequest.mk? d = .ok req) :
    (b64decodeM req.image).isSome = true := by
  rw [RootIndex.AnalyzeRequest.mk?] at h
  split at h
  · rename_i i s e himg hsid hent
    injection h with h'
    subst h'
    split at himg
    · rename_i s' hs'
      split at himg
      · rename_i v hv
        injection himg with h''
        subst h''
        exact validate_image_decodes s' v hv
      · simp at himg
    · simp at himg
  · simp at h

theorem analyzeRequest_mk_nil (req : RootIndex.AnalyzeRequest) :
    RootIndex.AnalyzeRequest.mk? .nil ≠ .ok req := by
  intro h
  simp [RootIndex.AnalyzeRequest.mk?, JObj.find] at h

theorem regenerateRequest_mk_nil (req : RootIndex.RegenerateRequest) :
    RootIndex.RegenerateRequest.mk? .nil ≠ .ok req := by
  intro h
  simp [RootIndex.RegenerateRequest.mk?, JObj.find] at h

/-! ## The claims -/

/-- C2: for an analyze request carrying a valid base64 image, a session id
and an empty existing-entities list, when the external capability is
unavailable (credential not configured) the `src/api/index.py` handler
responds HTTP 200 with exactly
`{rawText: "", summary: "", category: "other", entities: [],
suggestedNotebookTitle: null}`. -/
theorem C2_theorem (gem : Gemini) (img sid : String) (bytes : List Nat)
    (himg : decode_base64_image img = some bytes) :
    ApiIndex.analyze false gem
      (some (jObjOf [("image", .str img), ("sessionId", .str sid),
        ("existingEntities", .arr .nil)])) =
      ⟨200, ApiIndex.analyzeFallback⟩ := by
  have h : ApiIndex.analyze_run false gem
      (jObjOf [("image", .str img), ("sessionId", .str sid),
        ("existingEntities", .arr .nil)]) = none := by
    show (match decode_base64_image img with
      | some _image_bytes => (none : Option Json)
      | none => none) = none
    rw [himg]
  show (match ApiIndex.analyze_run false gem
      (jObjOf [("image", .str img), ("sessionId", .str sid),
        ("existingEntities", .arr .nil)]) with
    | some j => (⟨200, j⟩ : Response)
    | none => ⟨200, ApiIndex.analyzeFallback⟩) = ⟨200, ApiIndex.analyzeFallback⟩
  rw [h]

/-- C2 witness: the scenario at the concrete request
`{image: "AAAA", sessionId: "s1", existingEntities: []}`. -/
theorem C2_witness :
    decode_base64_image "AAAA" = some [0, 0, 0] ∧
    ApiIndex.analyze false .failure
      (some (jObjOf [("image", .str "AAAA"), ("sessionId", .str "s1"),
        ("existingEntities", .arr .nil)])) =
      ⟨200, ApiIndex.analyzeFallback⟩ :=
  ⟨rfl, C2_theorem .failure "AAAA" "s1" [0, 0, 0] rfl⟩

/-- C5: the response parser's normalization: after `strip()`, a text
beginning with a fence marker has exactly its first and last lines removed
(`lines[1:-1]`, joined back with newlines) before `json.loads`; the fenced
text ```` ```json\n{"a": 1}\n``` ```` yields the inner object unchanged;
and text that is not valid JSON after normalization fails to parse. -/
theorem C5_theorem (t u : String)
    (hf : fenceStart (pyStripL t.data) = true)
    (hu : jsonLoads (normalizeFence u) = none) :
    parse_json_response t =
      jsonLoads ⟨joinWithCharL '\n'
        (((splitOnCharL '\n' (pyStripL t.data)).drop 1).dropLast)⟩ ∧
    parse_json_response u = none ∧
    parse_json_response "```json\n\x7b\"a\": 1\x7d\n```" =
      some (.obj (jObjOf [("a", .num "1")])) ∧
    parse_json_response "```json\n\x7b\"a\": 1\x7d\n```" =
      jsonLoads "\x7b\"a\": 1\x7d" := by
  refine ⟨?_, hu, rfl, rfl⟩
  show jsonLoads (normalizeFence t) = _
  rw [normalizeFence]
  simp only [hf, if_true]

/-- C5 witness: concrete fenced and non-JSON inputs. -/
theorem C5_witness :
    fenceStart (pyStripL ("```json\nx\n```" : String).data) = true ∧
    jsonLoads (normalizeFence "nope") = none ∧
    (parse_json_response "```json\nx\n```" =
      jsonLoads ⟨joinWithCharL '\n'
        (((splitOnCharL '\n' (pyStripL ("```json\nx\n```" : String).data)).drop
          1).dropLast)⟩ ∧
    parse_json_response "nope" = none ∧
    parse_json_response "```json\n\x7b\"a\": 1\x7d\n```" =
      some (.obj (jObjOf [("a", .num "1")])) ∧
    parse_json_response "```json\n\x7b\"a\": 1\x7d\n```" =
      jsonLoads "\x7b\"a\": 1\x7d") :=
  ⟨rfl, rfl, C5_theorem "```json\nx\n```" "nope" rfl rfl⟩

/-- C6: parsing is idempotent — any successfully parsed model text, when
serialized back (`json.dumps`) and run through the parser again, yields the
same object. -/
theorem C6_theorem (t : String) (j : Json) (h : parse_json_response t = some j) :
    parse_json_response (jsonDumps j) = some j := by
  have hw : wfJ j = true := jsonLoads_wf (normalizeFence t) j h
  show jsonLoads (normalizeFence (jsonDumps j)) = some j
  rw [normalizeFence_dumps j hw]
  exact jsonLoads_dumps j hw

/-- C6 witness: the round trip at a concrete parsed object. -/
theorem C6_witness :
    parse_json_response "\x7b\"a\": 1\x7d" =
      some (.obj (jObjOf [("a", .num "1")])) ∧
    parse_json_response (jsonDumps (.obj (jObjOf [("a", .num "1")]))) =
      some (.obj (jObjOf [("a", .num "1")])) :=
  ⟨rfl, C6_theorem "\x7b\"a\": 1\x7d" (.obj (jObjOf [("a", .num "1")])) rfl⟩

/-- C7: every non-health operation of both drafts answers a request whose
body is missing a required field with HTTP 400 and a body naming that
field: the `src/api/index.py` analyze (`image`), regenerate (`sessionId`,
`screens`) and summarize (`sessionId`, `sessionName`, `entities`) checks,
and the `src/index.py` analyze (`image`, `session_id`) and regenerate
(`session_id`, `deleted_ids`, `remaining_screenshots`) pydantic
validations, whose 400 body lists the offending field names in `details`.
Each response is a constant independent of the credential `k` and the model
oracle `g`, so no call to the external capability is made.  (An entirely
absent or empty body is answered 400 by the generic body check that
precedes these field checks in both drafts.) -/
theorem C7_theorem (k : Bool) (g : Gemini)
    (d1 d2 d3 d4 d5 d6 d7 d8 d9 d10 : JObj)
    (v3 v5 v6a v6b : Json) (sid7 img8 vimg8 : String)
    (da9 ra9 : JArr) (dl9 : List String) (rl9 : List RootIndex.ScreenshotData)
    (h1 : d1.find "image" = none)
    (h2 : d2.find "sessionId" = none)
    (h3a : d3.find "sessionId" = some v3) (h3b : d3.find "screens" = none)
    (h4 : d4.find "sessionId" = none)
    (h5a : d5.find "sessionId" = some v5) (h5b : d5.find "sessionName" = none)
    (h6a : d6.find "sessionId" = some v6a) (h6b : d6.find "sessionName" = some v6b)
    (h6c : d6.find "entities" = none)
    (h7a : d7.find "image" = none) (h7b : d7.find "session_id" = some (.str sid7))
    (h7c : d7.find "existing_entities" = none)
    (h8a : d8.find "image" = some (.str img8))
    (h8b : validate_image img8 = some vimg8)
    (h8c : d8.find "session_id" = none) (h8d : d8.find "existing_entities" = none)
    (h9a : d9.find "session_id" = none)
    (h9b : d9.find "deleted_ids" = some (.arr da9))
    (h9c : RootIndex.parseStrList da9 = some dl9)
    (h9d : d9.find "remaining_screenshots" = some (.arr ra9))
    (h9e : RootIndex.parseScreenshotList ra9 = some rl9)
    (h10a : d10.isNil = false) (h10b : d10.find "session_id" = none)
    (h10c : d10.find "deleted_ids" = none)
    (h10d : d10.find "remaining_screenshots" = none) :
    ApiIndex.analyze k g (some d1) =
      ⟨400, .obj (jObjOf [("error", .str "Missing 'image' field")])⟩ ∧
    ApiIndex.regenerate k g (some d2) =
      ⟨400, .obj (jObjOf [("error", .str "Missing 'sessionId' field")])⟩ ∧
    ApiIndex.regenerate k g (some d3) =
      ⟨400, .obj (jObjOf [("error", .str "Missing 'screens' field")])⟩ ∧
    ApiIndex.summarize k g (some d4) =
      ⟨400, .obj (jObjOf [("error", .str "Missing 'sessionId' field")])⟩ ∧
    ApiIndex.summarize k g (some d5) =
      ⟨400, .obj (jObjOf [("error", .str "Missing 'sessionName' field")])⟩ ∧
    ApiIndex.summarize k g (some d6) =
      ⟨400, .obj (jObjOf [("error", .str "Missing 'entities' field")])⟩ ∧
    RootIndex.analyze k g (some d7) =
      ⟨400, .obj (jObjOf [("error", .str "Invalid request"),
        ("details", .arr (jArrOf [.str "image"]))])⟩ ∧
    RootIndex.analyze k g (some d8) =
      ⟨400, .obj (jObjOf [("error", .str "Invalid request"),
        ("details", .arr (jArrOf [.str "session_id"]))])⟩ ∧
    RootIndex.regenerate k g (some d9) =
      ⟨400, .obj (jObjOf [("error", .str "Invalid request"),
        ("details", .arr (jArrOf [.str "session_id"]))])⟩ ∧
    RootIndex.regenerate k g (some d10) =
      ⟨400, .obj (jObjOf [("error", .str "Invalid request"),
        ("details", .arr (jArrOf [.str "session_id", .str "deleted_ids",
          .str "remaining_screenshots"]))])⟩ := by
  refine ⟨?_, ?_, ?_, ?_, ?_, ?_, ?_, ?_, ?_, ?_⟩
  · simp [ApiIndex.analyze, h1]
  · simp [ApiIndex.regenerate, h2]
  · simp [ApiIndex.regenerate, h3a, h3b, find_isNil d3 _ _ h3a]
  · simp [ApiIndex.summarize, h4]
  · simp [ApiIndex.summarize, h5a, h5b, find_isNil d5 _ _ h5a]
  · simp [ApiIndex.summarize, h6a, h6b, h6c, find_isNil d6 _ _ h6a]
  · simp [RootIndex.analyze, RootIndex.AnalyzeRequest.mk?, h7a, h7b, h7c,
      RootIndex.errList, find_isNil d7 _ _ h7b, jArrOf]
  · simp [RootIndex.analyze, RootIndex.AnalyzeRequest.mk?, h8a, h8b, h8c, h8d,
      RootIndex.errList, find_isNil d8 _ _ h8a, jArrOf]
  · simp [RootIndex.regenerate, RootIndex.RegenerateRequest.mk?, h9a, h9b, h9c,
      h9d, h9e, RootIndex.errList, find_isNil d9 _ _ h9b, jArrOf]
  · simp [RootIndex.regenerate, RootIndex.RegenerateRequest.mk?, h10a, h10b,
      h10c, h10d, RootIndex.errList, jArrOf]

/-- C7 witness: concrete bodies, one per handler and missing field. -/
theorem C7_witness :
    ApiIndex.analyze true .failure (some (jObjOf [("sessionId", .str "s1")])) =
      ⟨400, .obj (jObjOf [("error", .str "Missing 'image' field")])⟩ ∧
    ApiIndex.regenerate true .failure (some (jObjOf [("image", .str "x")])) =
      ⟨400, .obj (jObjOf [("error", .str "Missing 'sessionId' field")])⟩ ∧
    ApiIndex.regenerate true .failure (some (jObjOf [("sessionId", .str "s1")])) =
      ⟨400, .obj (jObjOf [("error", .str "Missing 'screens' field")])⟩ ∧
    ApiIndex.summarize true .failure (some (jObjOf [("sessionName", .str "n")])) =
      ⟨400, .obj (jObjOf [("error", .str "Missing 'sessionId' field")])⟩ ∧
    ApiIndex.summarize true .failure (some (jObjOf [("sessionId", .str "s1")])) =
      ⟨400, .obj (jObjOf [("error", .str "Missing 'sessionName' field")])⟩ ∧
    ApiIndex.summarize true .failure
      (some (jObjOf [("sessionId", .str "s1"), ("sessionName", .str "n")])) =
      ⟨400, .obj (jObjOf [("error", .str "Missing 'entities' field")])⟩ ∧
    RootIndex.analyze true .failure (some (jObjOf [("session_id", .str "s1")])) =
      ⟨400, .obj (jObjOf [("error", .str "Invalid request"),
        ("details", .arr (jArrOf [.str "image"]))])⟩ ∧
    RootIndex.analyze true .failure (some (jObjOf [("image", .str "AAAA")])) =
      ⟨400, .obj (jObjOf [("error", .str "Invalid request"),
        ("details", .arr (jArrOf [.str "session_id"]))])⟩ ∧
    RootIndex.regenerate true .failure
      (some (jObjOf [("deleted_ids", .arr .nil),
        ("remaining_screenshots", .arr .nil)])) =
      ⟨400, .obj (jObjOf [("error", .str "Invalid request"),
        ("details", .arr (jArrOf [.str "session_id"]))])⟩ ∧
    RootIndex.regenerate true .failure (some (jObjOf [("x", .null)])) =
      ⟨400, .obj (jObjOf [("error", .str "Invalid request"),
        ("details", .arr (jArrOf [.str "session_id", .str "deleted_ids",
          .str "remaining_screenshots"]))])⟩ :=
  C7_theorem true .failure
    (jObjOf [("sessionId", .str "s1")]) (jObjOf [("image", .str "x")])
    (jObjOf [("sessionId", .str "s1")]) (jObjOf [("sessionName", .str "n")])
    (jObjOf [("sessionId", .str "s1")])
    (jObjOf [("sessionId", .str "s1"), ("sessionName", .str "n")])
    (jObjOf [("session_id", .str "s1")]) (jObjOf [("image", .str "AAAA")])
    (jObjOf [("deleted_ids", .arr .nil), ("remaining_screenshots", .arr .nil)])
    (jObjOf [("x", .null)])
    (.str "s1") (.str "s1") (.str "s1") (.str "n") "s1" "AAAA" "AAAA"
    .nil .nil [] []
    rfl rfl rfl rfl rfl rfl rfl rfl rfl rfl rfl rfl rfl rfl rfl rfl rfl rfl
    rfl rfl rfl rfl rfl rfl rfl rfl

/-- C10: on any downstream failure of the `src/api/index.py` regenerate
operation (the try-body yielding an exception), the fallback echoes the
request's `sessionId` while every other field takes its fixed empty value.
(A request whose body is absent is answered 400 before the try-body runs,
so the `""` default in `data.get("sessionId", "")` is never exercised on
this path.) -/
theorem C10_theorem (k : Bool) (g : Gemini) (d : JObj) (sid : Json)
    (hsid : d.find "sessionId" = some sid)
    (hscr : (d.find "screens").isSome = true)
    (hfail : ApiIndex.regenerate_run k g d = none) :
    ApiIndex.regenerate k g (some d) =
      ⟨200, .obj (jObjOf [("sessionId", sid), ("sessionSummary", .str ""),
        ("sessionCategory", .str "other"), ("entities", .arr .nil),
        ("suggestedNotebookTitle", .null)])⟩ := by
  obtain ⟨scr, hscr'⟩ := Option.isSome_iff_exists.mp hscr
  simp [ApiIndex.regenerate, hsid, hscr', find_isNil d _ _ hsid, hfail, JObj.findD]

/-- C10 witness: a concrete regenerate request failing on a missing
credential. -/
theorem C10_witness :
    ApiIndex.regenerate false .failure
      (some (jObjOf [("sessionId", .str "s1"), ("screens", .arr .nil)])) =
      ⟨200, .obj (jObjOf [("sessionId", .str "s1"), ("sessionSummary", .str ""),
        ("sessionCategory", .str "other"), ("entities", .arr .nil),
        ("suggestedNotebookTitle", .null)])⟩ :=
  C10_theorem false .failure
    (jObjOf [("sessionId", .str "s1"), ("screens", .arr .nil)])
    (.str "s1") rfl rfl rfl

/-- C1 counterexample: the claim fails on `src/index.py`.  A properly-shaped
analyze request (valid base64 image, session id, empty existing-entities
list) with the capability not configured is answered HTTP 400 with an error
body — not HTTP 200 with the fallback. -/
theorem C1_counterexample :
    RootIndex.analyze false .failure
      (some (jObjOf [("image", .str "AAAA"), ("session_id", .str "s1"),
        ("existing_entities", .arr .nil)])) =
      ⟨400, .obj (jObjOf [("error", .str "GEMINI_API_KEY not configured")])⟩ ∧
    (RootIndex.analyze false .failure
      (some (jObjOf [("image", .str "AAAA"), ("session_id", .str "s1"),
        ("existing_entities", .arr .nil)]))).status ≠ 200 :=
  ⟨rfl, by decide⟩

/-- C1 (amended): in the `src/api/index.py` handlers, every properly-shaped
analyze, regenerate or summarize request is answered with HTTP status 200 —
never a 4xx/5xx — and any failure of the try-body (capability not
configured, model call raising, unparsable model output) yields the
operation's fallback body (regenerate's echoes the request `sessionId`).
The `src/index.py` draft instead maps downstream `ValueError`s to HTTP 400
and unexpected exceptions to HTTP 500 (see the counterexample); and a
parsable but schema-invalid model reply is returned verbatim, not replaced
by the fallback, in both drafts. -/
theorem C1_theorem (k : Bool) (g : Gemini) (d1 d2 d3 : JObj)
    (h1 : (d1.find "image").isSome = true)
    (h2a : (d2.find "sessionId").isSome = true)
    (h2b : (d2.find "screens").isSome = true)
    (h3a : (d3.find "sessionId").isSome = true)
    (h3b : (d3.find "sessionName").isSome = true)
    (h3c : (d3.find "entities").isSome = true) :
    ((ApiIndex.analyze k g (some d1)).status = 200 ∧
      (ApiIndex.analyze_run k g d1 = none →
        ApiIndex.analyze k g (some d1) = ⟨200, ApiIndex.analyzeFallback⟩)) ∧
    ((ApiIndex.regenerate k g (some d2)).status = 200 ∧
      (ApiIndex.regenerate_run k g d2 = none →
        ApiIndex.regenerate k g (some d2) =
          ⟨200, .obj (jObjOf [("sessionId", d2.findD "sessionId" (.str "")),
            ("sessionSummary", .str ""), ("sessionCategory", .str "other"),
            ("entities", .arr .nil), ("suggestedNotebookTitle", .null)])⟩)) ∧
    ((ApiIndex.summarize k g (some d3)).status = 200 ∧
      (ApiIndex.summarize_run k g d3 = none →
        ApiIndex.summarize k g (some d3) = ⟨200, ApiIndex.summarizeFallback⟩)) := by
  obtain ⟨v1, hv1⟩ := Option.isSome_iff_exists.mp h1
  obtain ⟨v2a, hv2a⟩ := Option.isSome_iff_exists.mp h2a
  obtain ⟨v2b, hv2b⟩ := Option.isSome_iff_exists.mp h2b
  obtain ⟨v3a, hv3a⟩ := Option.isSome_iff_exists.mp h3a
  obtain ⟨v3b, hv3b⟩ := Option.isSome_iff_exists.mp h3b
  obtain ⟨v3c, hv3c⟩ := Option.isSome_iff_exists.mp h3c
  have hn1 := find_isNil d1 _ _ hv1
  have hn2 := find_isNil d2 _ _ hv2a
  have hn3 := find_isNil d3 _ _ hv3a
  refine ⟨⟨?_, ?_⟩, ⟨?_, ?_⟩, ⟨?_, ?_⟩⟩
  · cases hrun : ApiIndex.analyze_run k g d1 with
    | none => simp [ApiIndex.analyze, hv1, hn1, hrun]
    | some j => simp [ApiIndex.analyze, hv1, hn1, hrun]
  · intro hrun
    simp [ApiIndex.analyze, hv1, hn1, hrun]
  · cases hrun : ApiIndex.regenerate_run k g d2 with
    | none => simp [ApiIndex.regenerate, hv2a, hv2b, hn2, hrun]
    | some j => simp [ApiIndex.regenerate, hv2a, hv2b, hn2, hrun]
  · intro hrun
    simp [ApiIndex.regenerate, hv2a, hv2b, hn2, hrun]
  · cases hrun : ApiIndex.summarize_run k g d3 with
    | none => simp [ApiIndex.summarize, hv3a, hv3b, hv3c, hn3, hrun]
    | some j => simp [ApiIndex.summarize, hv3a, hv3b, hv3c, hn3, hrun]
  · intro hrun
    simp [ApiIndex.summarize, hv3a, hv3b, hv3c, hn3, hrun]

/-- C1 witness: the amended statement at concrete shaped requests with the
credential missing. -/
theorem C1_witness :
    ((ApiIndex.analyze false .failure
        (some (jObjOf [("image", .str "AAAA")]))).status = 200 ∧
      (ApiIndex.analyze_run false .failure (jObjOf [("image", .str "AAAA")]) = none →
        ApiIndex.analyze false .failure (some (jObjOf [("image", .str "AAAA")])) =
          ⟨200, ApiIndex.analyzeFallback⟩)) ∧
    ((ApiIndex.regenerate false .failure
        (some (jObjOf [("sessionId", .str "s1"), ("screens", .arr .nil)]))).status
        = 200 ∧
      (ApiIndex.regenerate_run false .failure
          (jObjOf [("sessionId", .str "s1"), ("screens", .arr .nil)]) = none →
        ApiIndex.regenerate false .failure
          (some (jObjOf [("sessionId", .str "s1"), ("screens", .arr .nil)])) =
          ⟨200, .obj (jObjOf [("sessionId",
            (jObjOf [("sessionId", .str "s1"),
              ("screens", .arr .nil)]).findD "sessionId" (.str "")),
            ("sessionSummary", .str ""), ("sessionCategory", .str "other"),
            ("entities", .arr .nil), ("suggestedNotebookTitle", .null)])⟩)) ∧
    ((ApiIndex.summarize false .failure
        (some (jObjOf [("sessionId", .str "s1"), ("sessionName", .str "n"),
          ("entities", .arr .nil)]))).status = 200 ∧
      (ApiIndex.summarize_run false .failure
          (jObjOf [("sessionId", .str "s1"), ("sessionName", .str "n"),
            ("entities", .arr .nil)]) = none →
        ApiIndex.summarize false .failure
          (some (jObjOf [("sessionId", .str "s1"), ("sessionName", .str "n"),
            ("entities", .arr .nil)])) = ⟨200, ApiIndex.summarizeFallback⟩)) :=
  C1_theorem false .failure (jObjOf [("image", .str "AAAA")])
    (jObjOf [("sessionId", .str "s1"), ("screens", .arr .nil)])
    (jObjOf [("sessionId", .str "s1"), ("sessionName", .str "n"),
      ("entities", .arr .nil)])
    rfl rfl rfl rfl rfl rfl

/-- C4 counterexample: the claim fails on `src/index.py`.  With an empty
existing-entities set, a model reply whose decision carries
`merge_with_id: "ghost"` (dangling) and `is_new: false` is returned to the
caller verbatim: nothing is downgraded and the dangling reference is kept. -/
theorem C4_counterexample :
    RootIndex.AnalyzeRequest.mk?
      (jObjOf [("image", .str "AAAA"), ("session_id", .str "s1"),
        ("existing_entities", .arr .nil)]) = .ok ⟨"AAAA", "s1", []⟩ ∧
    RootIndex.analyze true
      (.text "\x7b\"raw_text\": \"x\", \"entity\": \x7b\"type\": \"hotel\", \"is_new\": false, \"merge_with_id\": \"ghost\", \"confidence\": 1, \"data\": \x7b\x7d\x7d\x7d")
      (some (jObjOf [("image", .str "AAAA"), ("session_id", .str "s1"),
        ("existing_entities", .arr .nil)])) =
      ⟨200, .obj (jObjOf [("raw_text", .str "x"),
        ("entity", .obj (jObjOf [("type", .str "hotel"), ("is_new", .bool false),
          ("merge_with_id", .str "ghost"), ("confidence", .num "1"),
          ("data", .obj .nil)]))])⟩ ∧
    (jObjOf [("type", .str "hotel"), ("is_new", .bool false),
      ("merge_with_id", .str "ghost"), ("confidence", .num "1"),
      ("data", .obj .nil)]).find "merge_with_id" = some (.str "ghost") ∧
    (jObjOf [("type", .str "hotel"), ("is_new", .bool false),
      ("merge_with_id", .str "ghost"), ("confidence", .num "1"),
      ("data", .obj .nil)]).find "is_new" = some (.bool false) :=
  ⟨rfl, rfl, rfl, rfl⟩

/-- C4 (amended): the `src/index.py` analyze operation performs no local
validation of the model's match decision: whenever the request validates
and the model reply parses, the parsed object is returned verbatim with
HTTP 200, whatever `merge_with_id` it carries. -/
theorem C4_theorem (t : String) (j : Json) (d : JObj)
    (req : RootIndex.AnalyzeRequest)
    (hreq : RootIndex.AnalyzeRequest.mk? d = .ok req)
    (hp : parse_json_response t = some j) :
    RootIndex.analyze true (.text t) (some d) = ⟨200, j⟩ := by
  have hn : d.isNil = false := by
    cases d with
    | nil => exact absurd hreq (analyzeRequest_mk_nil req)
    | cons k' v' t' => rfl
  have hdec := analyzeRequest_mk_ok_image d req hreq
  obtain ⟨bs, hbs⟩ := Option.isSome_iff_exists.mp hdec
  have hrun : RootIndex.analyze_with_gemini true (.text t) req.image
      (req.existing_entities.map RootIndex.ExistingEntity.toJson) = .ok j := by
    show (match b64decodeM req.image with
      | some _image_data =>
        match parse_json_response t with
        | some j' => (Except.ok j' : Except RootIndex.PyErr Json)
        | none => .error (.valueError "Invalid JSON response from Gemini")
      | none => .error .unexpected) = .ok j
    rw [hbs, hp]
  simp [RootIndex.analyze, hn, hreq, hrun]

/-- C4 witness: the amended statement at a concrete request and reply. -/
theorem C4_witness :
    RootIndex.analyze true (.text "\x7b\"a\": 1\x7d")
      (some (jObjOf [("image", .str "AAAA"), ("session_id", .str "s1")])) =
      ⟨200, .obj (jObjOf [("a", .num "1")])⟩ :=
  C4_theorem "\x7b\"a\": 1\x7d" (.obj (jObjOf [("a", .num "1")]))
    (jObjOf [("image", .str "AAAA"), ("session_id", .str "s1")])
    ⟨"AAAA", "s1", []⟩ rfl rfl

/-- C3 counterexample: the claim fails on `src/index.py`.  For a regenerate
request with `deleted_ids = ["shot-2"]` and one surviving screenshot
`shot-1`, a model reply attributing the consolidated entity to the deleted
`shot-2` is accepted and returned verbatim: no stripping against
`deleted_ids` and no dropping of emptied entities occurs. -/
theorem C3_counterexample :
    RootIndex.RegenerateRequest.mk?
      (jObjOf [("session_id", .str "s1"),
        ("deleted_ids", .arr (jArrOf [.str "shot-2"])),
        ("remaining_screenshots", .arr (jArrOf [.obj (jObjOf [("id", .str "shot-1"),
          ("raw_text", .str ""), ("data", .obj .nil)])]))]) =
      .ok ⟨"s1", ["shot-2"], [⟨"shot-1", "", .nil⟩]⟩ ∧
    RootIndex.regenerate true
      (.text "[\x7b\"entity_type\": \"hotel\", \"source_screenshot_ids\": [\"shot-2\"], \"data\": \x7b\x7d\x7d]")
      (some (jObjOf [("session_id", .str "s1"),
        ("deleted_ids", .arr (jArrOf [.str "shot-2"])),
        ("remaining_screenshots", .arr (jArrOf [.obj (jObjOf [("id", .str "shot-1"),
          ("raw_text", .str ""), ("data", .obj .nil)])]))])) =
      ⟨200, .obj (jObjOf [("summary",
        .arr (jArrOf [.obj (jObjOf [("entity_type", .str "hotel"),
          ("source_screenshot_ids", .arr (jArrOf [.str "shot-2"])),
          ("data", .obj .nil)])]))])⟩ ∧
    (jObjOf [("entity_type", .str "hotel"),
      ("source_screenshot_ids", .arr (jArrOf [.str "shot-2"])),
      ("data", .obj .nil)]).find "source_screenshot_ids" =
      some (.arr (jArrOf [.str "shot-2"])) ∧
    "shot-2" ∈ ["shot-2"] :=
  ⟨rfl, rfl, rfl, by decide⟩

/-- C3 (amended): the `src/index.py` regenerate operation forwards the
surviving screenshots and the deleted ids to the model and wraps the parsed
model reply verbatim as `{"summary": result}` with HTTP 200: no subset
validation of `sourceScreenshotIds` against the surviving ids, no stripping
of deleted references and no dropping of emptied entities is performed
locally. -/
theorem C3_theorem (t : String) (j : Json) (d : JObj)
    (req : RootIndex.RegenerateRequest)
    (hreq : RootIndex.RegenerateRequest.mk? d = .ok req)
    (hp : parse_json_response t = some j) :
    RootIndex.regenerate true (.text t) (some d) =
      ⟨200, .obj (jObjOf [("summary", j)])⟩ := by
  have hn : d.isNil = false := by
    cases d with
    | nil => exact absurd hreq (regenerateRequest_mk_nil req)
    | cons k' v' t' => rfl
  have hrun : RootIndex.regenerate_with_gemini true (.text t)
      (req.remaining_screenshots.map RootIndex.ScreenshotData.toJson)
      req.deleted_ids = .ok j := by
    show (match parse_json_response t with
      | some j' => (Except.ok j' : Except RootIndex.PyErr Json)
      | none => .error (.valueError "Invalid JSON response from Gemini")) = .ok j
    rw [hp]
  simp [RootIndex.regenerate, hn, hreq, hrun]

/-- C3 witness: the amended statement at a concrete request and reply. -/
theorem C3_witness :
    RootIndex.regenerate true (.text "[]")
      (some (jObjOf [("session_id", .str "s1"),
        ("deleted_ids", .arr .nil), ("remaining_screenshots", .arr .nil)])) =
      ⟨200, .obj (jObjOf [("summary", .arr .nil)])⟩ :=
  C3_theorem "[]" (.arr .nil)
    (jObjOf [("session_id", .str "s1"), ("deleted_ids", .arr .nil),
      ("remaining_screenshots", .arr .nil)])
    ⟨"s1", [], []⟩ rfl rfl

/-- C8: prompt construction is total — every builder is a function into
`String`, witnessed by the trivially inhabited first conjunct — and missing
context fields take the explicit placeholders: an empty existing-entities
list is rendered as `"None"` in the analyze prompt, and a previous session
without a `sessionSummary` contributes `"No previous context"` to the
regenerate prompt. -/
theorem C8_theorem (existing : List Json) (prev : JObj)
    (hprev : prev.find "sessionSummary" = none) :
    (∃ p : String, ANALYZE_PROMPT_fmt (RootIndex.entities_str_of existing) = p) ∧
    RootIndex.entities_str_of [] = "None" ∧
    ANALYZE_PROMPT_fmt (RootIndex.entities_str_of []) = ANALYZE_PROMPT_fmt "None" ∧
    pyStr (prev.findD "sessionSummary" (.str "No previous context")) =
      "No previous context" := by
  refine ⟨⟨_, rfl⟩, rfl, rfl, ?_⟩
  rw [JObj.findD, hprev]
  rfl

/-- C8 witness: placeholders at the empty context. -/
theorem C8_witness :
    (∃ p : String, ANALYZE_PROMPT_fmt (RootIndex.entities_str_of []) = p) ∧
    RootIndex.entities_str_of [] = "None" ∧
    ANALYZE_PROMPT_fmt (RootIndex.entities_str_of []) = ANALYZE_PROMPT_fmt "None" ∧
    pyStr (JObj.nil.findD "sessionSummary" (.str "No previous context")) =
      "No previous context" :=
  C8_theorem [] .nil rfl

/-- C9: an analyze image string wrapped as a data URL — `"data:"` prefix,
then a comma-free header, a comma, and a valid base64 payload — has the
portion up to and including the comma stripped before decoding, in both
`decode_base64_image` (src/api/index.py) and `AnalyzeRequest.validate_image`
(src/index.py); it is accepted and decodes to the same bytes as the bare
payload. -/
theorem C9_theorem (mid payload : String) (bytes : List Nat)
    (hmid : ',' ∉ mid.data) (hpay : ',' ∉ payload.data)
    (hdec : b64decodeM payload = some bytes) :
    decode_base64_image ("data:" ++ mid ++ "," ++ payload) = some bytes ∧
    decode_base64_image ("data:" ++ mid ++ "," ++ payload) = b64decodeM payload ∧
    validate_image ("data:" ++ mid ++ "," ++ payload) = some payload := by
  have hno : ',' ∉ ("data:" : String).data ++ mid.data := by
    intro h
    rcases List.mem_append.mp h with h' | h'
    · exact absurd h' (by decide)
    · exact hmid h'
  have hdata : ("data:" ++ mid ++ "," ++ payload).data =
      (("data:" : String).data ++ mid.data) ++ ',' :: payload.data := by
    show ((("data:" : String).data ++ mid.data) ++ [',']) ++ payload.data = _
    rw [List.append_assoc, List.singleton_append]
  have hpre : pyStartsWith "data:" ("data:" ++ mid ++ "," ++ payload) = true := by
    rw [pyStartsWith, hdata, List.append_assoc]
    exact isPrefixOf_append_self _ _
  have hsplit : splitOnCharL ',' (("data:" ++ mid ++ "," ++ payload).data) =
      (("data:" : String).data ++ mid.data) :: [payload.data] := by
    rw [hdata, splitOnCharL_append_sep ',' _ _ hno, splitOnCharL_no_sep ',' _ hpay]
  have hidx : (splitOnCharL ',' (("data:" ++ mid ++ "," ++ payload).data))[1]? =
      some payload.data := by
    rw [hsplit]
    rfl
  have heta : (⟨payload.data⟩ : String) = payload := rfl
  refine ⟨?_, ?_, ?_⟩
  · rw [decode_base64_image, if_pos (by rw [hpre]), hidx]
    exact hdec
  · rw [decode_base64_image, if_pos (by rw [hpre]), hidx]
  · rw [validate_image, if_pos (by rw [hpre]), hidx]
    show (match b64decodeM (⟨payload.data⟩ : String) with
      | some _ => some (⟨payload.data⟩ : String)
      | none => none) = some payload
    rw [heta, hdec]

/-- C9 witness: a concrete PNG-style data URL. -/
theorem C9_witness :
    decode_base64_image ("data:" ++ "image/png;base64" ++ "," ++ "AAAA") =
      some [0, 0, 0] ∧
    decode_base64_image ("data:" ++ "image/png;base64" ++ "," ++ "AAAA") =
      b64decodeM "AAAA" ∧
    validate_image ("data:" ++ "image/png;base64" ++ "," ++ "AAAA") =
      some "AAAA" :=
  C9_theorem "image/png;base64" "AAAA" [0, 0, 0] (by decide) (by decide) rfl
